import Mathlib

set_option maxRecDepth 8000

set_option maxHeartbeats 1000000

/-!
Shallow embedding of the chess rules engine in src/chess.c.

Each board square is one byte (modelled as a `Nat` kept below 256):
bit 7 = piece selected, bit 6 = dot (candidate mark), bit 5 = pawn can be
en-passant captured, bit 4 = rook/king has not moved or pawn is a top pawn,
bit 3 = color (0 white, 1 black), bits 0-2 = piece type.
The board itself is the 64-entry array board[]; indices outside 0..63 are
kept unchanged by every operation, mirroring the fixed array extent.
-/

/-- Piece type constants from the C enum Pieces. -/
def NONE : Nat := 0

def PAWN : Nat := 1

def KNIGHT : Nat := 2

def BISHOP : Nat := 3

def ROOK : Nat := 4

def QUEEN : Nat := 5

def KING : Nat := 6

/-- Color constants from the C enum Color. -/
def WHITE : Nat := 0

def BLACK : Nat := 8

/-- The board array: square index to square byte. -/
abbrev Board := Nat → Nat

/-- Writing one array cell: board[n] = v. -/
def setSq (b : Board) (n v : Nat) : Board := fun k => if k = n then v else b k

/-- Every cell holds a byte (the C array has type u8[64]). -/
def isByte (b : Board) : Prop := ∀ k, b k < 256

/-- A board built from an explicit list of square bytes (squares past the
    list are empty); used for concrete test positions. -/
def ofList (l : List Nat) : Board := fun k => l.getD k 0

/-- removeDots: board[i] &= 0xbf for every i in 0..63. -/
def removeDots (b : Board) : Board := fun k => if k < 64 then b k &&& 191 else b k

/-- The loop at the top of movePiece: board[j] &= 0xdf for every j in 0..63. -/
def epClearAll (b : Board) : Board := fun k => if k < 64 then b k &&& 223 else b k

/-- dotSquare: dot square n for the piece sitting at pos.  Returns the
    updated board and the C return code (0 = own piece, square untouched;
    1 = empty square dotted; 2 = occupied enemy square dotted). -/
def dotSquare (b : Board) (pos n : Nat) : Board × Nat :=
  if b n &&& 7 = NONE then (setSq b n (b n ||| 64), 1)
  else if (b pos >>> 3) &&& 1 ≠ (b n >>> 3) &&& 1 then (setSq b n (b n ||| 64), 2)
  else (b, 0)

/-- One C sliding loop `for (j = start; g(j); j += d) if (dotSquare(...) != 1) break;`.
    The step is u8 arithmetic, so j advances to (j + d) % 256; d is the
    two's-complement byte of the C offset.  The fuel only bounds the loop
    (every loop in the source exits within 8 iterations). -/
def dotRay (pos d : Nat) (g : Nat → Bool) : Nat → Nat → Board → Board
  | 0, _, b => b
  | fuel + 1, j, b =>
    if g j then
      let p := dotSquare b pos j
      if p.2 = 1 then dotRay pos d g fuel ((j + d) % 256) p.1 else p.1
    else b

/-- Guard of the diagonal loops that stop at file 7: (j < 64) && ((j & 7) != 7). -/
def gF7 : Nat → Bool := fun j => decide (j < 64) && decide (j &&& 7 ≠ 7)

/-- Guard of the diagonal loops that stop at file 0: (j < 64) && ((j & 7) != 0). -/
def gF0 : Nat → Bool := fun j => decide (j < 64) && decide (j &&& 7 ≠ 0)

/-- Guard of the vertical rook loops: j < 64. -/
def gIn : Nat → Bool := fun j => decide (j < 64)

/-- Guard of the leftward rook loop: (j & 7) != 7. -/
def gH7 : Nat → Bool := fun j => decide (j &&& 7 ≠ 7)

/-- Guard of the rightward rook loop: (j & 7) != 0. -/
def gH0 : Nat → Bool := fun j => decide (j &&& 7 ≠ 0)

/-- A guarded C statement `if (cond) dotSquare(board, pos, n);`. -/
def dotIf (c : Prop) [Decidable c] (b : Board) (pos n : Nat) : Board :=
  if c then (dotSquare b pos n).1 else b

/-- A guarded C statement `if (cond) board[n] |= 64;`. -/
def setDotIf (c : Prop) [Decidable c] (b : Board) (n : Nat) : Board :=
  if c then setSq b n (b n ||| 64) else b

/-- dotDiagonals: the four diagonal sliding loops (deltas -9, -7, +7, +9 as
    bytes 247, 249, 7, 9). -/
def dotDiagonals (b : Board) (i : Nat) : Board :=
  dotRay i 9 gF0 64 ((i + 9) % 256)
    (dotRay i 7 gF7 64 ((i + 7) % 256)
      (dotRay i 249 gF0 64 ((i + 249) % 256)
        (dotRay i 247 gF7 64 ((i + 247) % 256) b)))

/-- The four orthogonal sliding loops in the ROOK case of calculateMoves
    (deltas -8, -1, +1, +8 as bytes 248, 255, 1, 8). -/
def dotStraights (b : Board) (i : Nat) : Board :=
  dotRay i 8 gIn 64 ((i + 8) % 256)
    (dotRay i 1 gH0 64 ((i + 1) % 256)
      (dotRay i 255 gH7 64 ((i + 255) % 256)
        (dotRay i 248 gIn 64 ((i + 248) % 256) b)))

/-- The top-pawn half of the PAWN case of calculateMoves. -/
def pawnMovesTop (b : Board) (i : Nat) : Board :=
  let b1 := setDotIf (i < 16 ∧ b (i + 16) &&& 7 = NONE) b (i + 16)
  let b2 := setDotIf (i < 56 ∧ b1 (i + 8) &&& 7 = NONE) b1 (i + 8)
  let b3 := setDotIf (i < 55 ∧ i &&& 7 ≠ 7 ∧
      ((b2 (i + 9) &&& 7 ≠ 0 ∧ (b2 (i + 9) >>> 3) &&& 1 ≠ (b2 i >>> 3) &&& 1)
        ∨ (b2 (i + 1) &&& 7 = PAWN ∧ (b2 (i + 1) >>> 5) &&& 1 = 1
            ∧ (b2 (i + 1) >>> 3) &&& 1 ≠ (b2 i >>> 3) &&& 1))) b2 (i + 9)
  setDotIf (i < 57 ∧ i &&& 7 ≠ 0 ∧
      ((b3 (i + 7) &&& 7 ≠ 0 ∧ (b3 (i + 7) >>> 3) &&& 1 ≠ (b3 i >>> 3) &&& 1)
        ∨ (b3 (i - 1) &&& 7 = PAWN ∧ (b3 (i - 1) >>> 5) &&& 1 = 1
            ∧ (b3 (i - 1) >>> 3) &&& 1 ≠ (b3 i >>> 3) &&& 1))) b3 (i + 7)

/-- The bottom-pawn half of the PAWN case of calculateMoves. -/
def pawnMovesBottom (b : Board) (i : Nat) : Board :=
  let b1 := setDotIf (48 ≤ i ∧ b (i - 16) &&& 7 = NONE) b (i - 16)
  let b2 := setDotIf (8 ≤ i ∧ b1 (i - 8) &&& 7 = NONE) b1 (i - 8)
  let b3 := setDotIf (9 ≤ i ∧ i &&& 7 ≠ 0 ∧
      ((b2 (i - 9) &&& 7 ≠ 0 ∧ (b2 (i - 9) >>> 3) &&& 1 ≠ (b2 i >>> 3) &&& 1)
        ∨ (b2 (i - 1) &&& 7 = PAWN ∧ (b2 (i - 1) >>> 5) &&& 1 = 1
            ∧ (b2 (i - 1) >>> 3) &&& 1 ≠ (b2 i >>> 3) &&& 1))) b2 (i - 9)
  setDotIf (7 < i ∧ i &&& 7 ≠ 7 ∧
      ((b3 (i - 7) &&& 7 ≠ 0 ∧ (b3 (i - 7) >>> 3) &&& 1 ≠ (b3 i >>> 3) &&& 1)
        ∨ (b3 (i + 1) &&& 7 = PAWN ∧ (b3 (i + 1) >>> 5) &&& 1 = 1
            ∧ (b3 (i + 1) >>> 3) &&& 1 ≠ (b3 i >>> 3) &&& 1))) b3 (i - 7)

/-- The KNIGHT case of calculateMoves: eight guarded dotSquare calls. -/
def knightMoves (b : Board) (i : Nat) : Board :=
  let b1 := dotIf (17 ≤ i ∧ i &&& 7 ≠ 0) b i (i - 17)
  let b2 := dotIf (15 ≤ i ∧ i &&& 7 ≠ 7) b1 i (i - 15)
  let b3 := dotIf (10 ≤ i ∧ 1 < i &&& 7) b2 i (i - 10)
  let b4 := dotIf (6 ≤ i ∧ i &&& 7 < 6) b3 i (i - 6)
  let b5 := dotIf (i < 47 ∧ i &&& 7 ≠ 7) b4 i (i + 17)
  let b6 := dotIf (i < 49 ∧ i &&& 7 ≠ 0) b5 i (i + 15)
  let b7 := dotIf (i < 54 ∧ i &&& 7 < 6) b6 i (i + 10)
  dotIf (i < 58 ∧ 1 < i &&& 7) b7 i (i + 6)

/-- The eight adjacent-square dotSquare calls of the KING case. -/
def kingAdj (b : Board) (i : Nat) : Board :=
  let b1 := dotIf (8 ≤ i) b i (i - 8)
  let b2 := dotIf (i &&& 7 ≠ 0) b1 i (i - 1)
  let b3 := dotIf (i &&& 7 ≠ 7) b2 i (i + 1)
  let b4 := dotIf (i < 56) b3 i (i + 8)
  let b5 := dotIf (9 ≤ i ∧ i &&& 7 ≠ 0) b4 i (i - 9)
  let b6 := dotIf (7 < i ∧ i &&& 7 ≠ 7) b5 i (i - 7)
  let b7 := dotIf (i < 57 ∧ i &&& 7 ≠ 0) b6 i (i + 7)
  dotIf (i < 55 ∧ i &&& 7 ≠ 7) b7 i (i + 9)

/-- The castling section of the KING case of calculateMoves. -/
def kingCastle (b : Board) (i : Nat) : Board :=
  if (b i >>> 4) &&& 1 = 1 then
    if i &&& 7 = 3 then
      let bq := dotIf (b (i - 3) &&& 7 = ROOK ∧ (b (i - 3) >>> 4) &&& 1 = 1
          ∧ b (i - 2) &&& 7 = NONE ∧ b (i - 1) &&& 7 = NONE) b i (i - 2)
      dotIf (bq (i + 4) &&& 7 = ROOK ∧ (bq (i + 4) >>> 4) &&& 1 = 1
          ∧ bq (i + 1) &&& 7 = NONE ∧ bq (i + 2) &&& 7 = NONE
          ∧ bq (i + 3) &&& 7 = NONE) bq i (i + 2)
    else
      let bk := dotIf (b (i + 3) &&& 7 = ROOK ∧ (b (i + 3) >>> 4) &&& 1 = 1
          ∧ b (i + 2) &&& 7 = NONE ∧ b (i + 1) &&& 7 = NONE) b i (i + 2)
      dotIf (bk (i - 4) &&& 7 = ROOK ∧ (bk (i - 4) >>> 4) &&& 1 = 1
          ∧ bk (i - 1) &&& 7 = NONE ∧ bk (i - 2) &&& 7 = NONE
          ∧ bk (i - 3) &&& 7 = NONE) bk i (i - 2)
  else b

/-- The KING case of calculateMoves: adjacent squares, then castling. -/
def kingMoves (b : Board) (i : Nat) : Board := kingCastle (kingAdj b i) i

/-- calculateMoves: dispatch on the piece type at square i. -/
def calculateMoves (b : Board) (i : Nat) : Board :=
  if b i &&& 7 = PAWN then
    if (b i >>> 4) &&& 1 = 1 then pawnMovesTop b i else pawnMovesBottom b i
  else if b i &&& 7 = KNIGHT then knightMoves b i
  else if b i &&& 7 = BISHOP then dotDiagonals b i
  else if b i &&& 7 = QUEEN then dotStraights (dotDiagonals b i) i
  else if b i &&& 7 = ROOK then dotStraights b i
  else if b i &&& 7 = KING then kingMoves b i
  else b

/-- The selected-piece scan `for (j = 0; (board[j] >> 7) == 0; j++);`,
    started at index j with the given number of array cells left.  Running
    out of cells models the scan leaving the 64-byte array. -/
def selScan (b : Board) : Nat → Nat → Option Nat
  | _, 0 => none
  | j, fuel + 1 => if b j >>> 7 = 0 then selScan b (j + 1) fuel else some j

/-- Index of the selected square: the scan started at 0 over the 64 cells. -/
def findSel (b : Board) : Option Nat := selScan b 0 64

/-- The switch statement of movePiece plus the final origin clear, applied
    to the board after the en-passant clear and removeDots, with the mover
    at square j and the destination at square i. -/
def movePieceFrom (b2 : Board) (i j : Nat) : Board :=
  let b3 :=
    if b2 j &&& 7 = PAWN then
      if i < 8 ∨ 56 ≤ i then setSq b2 i ((b2 j &&& 8) ||| QUEEN)
      else if b2 i &&& 7 = NONE ∧ j &&& 7 ≠ i &&& 7 then
        let bA := setSq b2 i (b2 j &&& 31)
        if i &&& 7 < j &&& 7 then setSq bA (j - 1) NONE else setSq bA (j + 1) NONE
      else
        let bA := setSq b2 i (b2 j &&& 31)
        if i - j = 16 ∨ j - i = 16 then setSq bA i (bA i ||| 32) else bA
    else if b2 j &&& 7 = KING then
      let bA :=
        if j - i = 2 then
          setSq (setSq b2 (i + 1) (b2 (i &&& 248) &&& 15)) (i &&& 248) NONE
        else if i - j = 2 then
          setSq (setSq b2 (j + 1) (b2 ((i &&& 248) + 7) &&& 15)) ((i &&& 248) + 7) NONE
        else b2
      setSq bA i (bA j &&& 15)
    else if b2 j &&& 7 = ROOK then
      setSq b2 i (b2 j &&& 15)
    else
      setSq b2 i (b2 j &&& 63)
  setSq b3 j NONE

/-- movePiece: clear all en-passant bits, locate the selected piece, clear
    all dots, then apply the move to destination i.  When no square is
    selected the C scan leaves the array (undefined behavior); the model
    returns the board after the en-passant clear in that case. -/
def movePiece (b : Board) (i : Nat) : Board :=
  let b1 := epClearAll b
  match findSel b1 with
  | none => b1
  | some j => movePieceFrom (removeDots b1) i j

/-- The inner scan of verifyMove: does any square hold a dot on a king? -/
def kingDotted (b : Board) : Bool :=
  (List.range 64).any fun k =>
    decide ((b k >>> 6) &&& 1 = 1) && decide (b k &&& 7 = KING)

/-- The outer loop of verifyMove over the scratch board: for every square
    of the given color, generate its moves and test whether a king is
    dotted; clear the dots before the next piece. -/
def verifyAux (next : Nat) : List Nat → Board → Nat
  | [], _ => 1
  | j :: rest, b2 =>
    if b2 j &&& 7 ≠ 0 ∧ (b2 j >>> 3) &&& 1 = next then
      let b3 := calculateMoves b2 j
      if kingDotted b3 then 0 else verifyAux next rest (removeDots b3)
    else verifyAux next rest b2

/-- verifyMove: copy the 64 squares into the stack-local scratch board,
    simulate the move there, and scan for an attack on a king.  The result
    pairs the C return value with the caller's board after the call; every
    write in the source targets the scratch copy board2, so the caller's
    array is returned as it was passed. -/
def verifyMove (b : Board) (i next : Nat) : Nat × Board :=
  let scratch : Board := fun k => if k < 64 then b k else 0
  (verifyAux next (List.range 64) (movePiece scratch i), b)

/-- setupBoard: the initial position (white_on_top selects which color
    fills ranks 0-1). -/
def setupBoard (white_on_top : Bool) : Board :=
  let side1 := if white_on_top then WHITE else BLACK
  let side2 := if white_on_top then BLACK else WHITE
  let left_middle := if white_on_top then KING ||| 16 else QUEEN
  let right_middle := if white_on_top then QUEEN else KING ||| 16
  ofList
    ([side1 ||| ROOK ||| 16, side1 ||| KNIGHT, side1 ||| BISHOP,
      side1 ||| left_middle, side1 ||| right_middle, side1 ||| BISHOP,
      side1 ||| KNIGHT, side1 ||| ROOK ||| 16]
      ++ List.replicate 8 (side1 ||| PAWN ||| 16)
      ++ List.replicate 32 NONE
      ++ List.replicate 8 (side2 ||| PAWN)
      ++ [side2 ||| ROOK ||| 16, side2 ||| KNIGHT, side2 ||| BISHOP,
          side2 ||| left_middle, side2 ||| right_middle, side2 ||| BISHOP,
          side2 ||| KNIGHT, side2 ||| ROOK ||| 16])

/-- Path of squares a sliding loop visits: start at j, step by d modulo
    256, while the guard holds. -/
def rayPath (d : Nat) (g : Nat → Bool) : Nat → Nat → List Nat
  | 0, _ => []
  | fuel + 1, j => if g j then j :: rayPath d g fuel ((j + d) % 256) else []

/-- The four diagonal rays from square i, in source order. -/
def bishopRays (i : Nat) : List (List Nat) :=
  [rayPath 247 gF7 64 ((i + 247) % 256), rayPath 249 gF0 64 ((i + 249) % 256),
    rayPath 7 gF7 64 ((i + 7) % 256), rayPath 9 gF0 64 ((i + 9) % 256)]

/-- The four orthogonal rays from square i, in source order. -/
def rookRays (i : Nat) : List (List Nat) :=
  [rayPath 248 gIn 64 ((i + 248) % 256), rayPath 255 gH7 64 ((i + 255) % 256),
    rayPath 1 gH0 64 ((i + 1) % 256), rayPath 8 gIn 64 ((i + 8) % 256)]

/-- The rays a sliding piece slides along: diagonals for the bishop,
    orthogonals for the rook, both for the queen. -/
def pieceRays (p i : Nat) : List (List Nat) :=
  if p = BISHOP then bishopRays i
  else if p = ROOK then rookRays i
  else bishopRays i ++ rookRays i

/-! ### Core preservation

Dotting squares only sets bit 6, so piece type, color, orientation and
en-passant bits survive every marking step. -/

/-- Two boards agree on piece type, color, orientation and en-passant bits. -/
def sameCore (b c : Board) : Prop :=
  ∀ k, c k &&& 7 = b k &&& 7 ∧ (c k >>> 3) &&& 1 = (b k >>> 3) &&& 1
    ∧ (c k >>> 4) &&& 1 = (b k >>> 4) &&& 1 ∧ (c k >>> 5) &&& 1 = (b k >>> 5) &&& 1

/-! ### Characterization of the sliding loops -/

/-- Setting the dot bit on every square of a list. -/
def addDots (l : List Nat) (b : Board) : Board :=
  fun k => if k ∈ l then b k ||| 64 else b k

/-- The squares a sliding loop dots, read off its visited path by the
    shared square rule: an empty square is dotted and the slide continues,
    the first occupied square ends the slide and is dotted exactly when it
    holds the opposing color. -/
def raySpec (b : Board) (pos : Nat) : List Nat → List Nat
  | [] => []
  | j :: rest =>
    if b j &&& 7 = 0 then j :: raySpec b pos rest
    else if (b pos >>> 3) &&& 1 ≠ (b j >>> 3) &&& 1 then [j] else []

/-- Test position for the sliding characterization: white bishop at 27,
    own pawn at 13 up-right, enemy pawn at 41 down-left. -/
def c8List : List Nat :=
  List.replicate 13 0 ++ [1] ++ List.replicate 13 0 ++ [3] ++ List.replicate 13 0 ++ [9]

def c8Board : Board := ofList c8List

/-- Position refuting the two-square-advance claim: white top pawn at 12,
    blocking knight at 20 directly in front of it, square 28 empty. -/
def c1List : List Nat := List.replicate 12 0 ++ [17] ++ List.replicate 7 0 ++ [10]

def c1Board : Board := ofList c1List

/-- Position refuting the no-own-capture claim: white top pawn at 16, black
    en-passant-vulnerable pawn beside it at 17, own white knight at 25 on
    the capture diagonal. -/
def c2List : List Nat := List.replicate 16 0 ++ [17, 41] ++ List.replicate 7 0 ++ [2]

def c2Board : Board := ofList c2List

/-- Position refuting the rook-color condition of the castling claim: white
    unmoved king at 59, black unmoved rook at the corner 56, 57 and 58 empty. -/
def c3List : List Nat := List.replicate 56 0 ++ [28, 0, 0, 22]

def c3Board : Board := ofList c3List

/-! ### Concrete witnesses for the movePiece and castling claims -/

/-- Selected white top pawn at 48, one step from the back rank. -/
def c7List : List Nat := List.replicate 48 0 ++ [145]

def c7Board : Board := ofList c7List

/-- Selected white knight at 0, the only selected square. -/
def c9List : List Nat := [130]

def c9Board : Board := ofList c9List

/-- Selected white top pawn at 8, double-stepping to 24. -/
def c4List : List Nat := List.replicate 8 0 ++ [145]

def c4Board : Board := ofList c4List

/-- Selected white rook at 5, a stale dot at 13 (the destination). -/
def c10List : List Nat := [0, 0, 0, 0, 0, 148, 0, 0, 0, 0, 0, 0, 0, 64]

def c10Board : Board := ofList c10List

/-- Selected unmoved white king at 3, unmoved white rook at 0, squares 1
    and 2 empty: queenside castle, destination 1. -/
def c6List : List Nat := [20, 0, 0, 150]

def c6Board : Board := ofList c6List

/-- Unmoved white king at 59, unmoved white rook at 56, 57 and 58 empty. -/
def c3wList : List Nat := List.replicate 56 0 ++ [20, 0, 0, 22]

def c3wBoard : Board := ofList c3wList

/-! ### Byte-level facts

Cell values are bytes, so facts about the C bit operations are proved by
checking all 256 byte values. -/

/-- Setting the dot bit keeps the value a byte. -/
theorem byte_or64 : ∀ x, x < 256 → x ||| 64 < 256 := by decide

/-- Setting the dot bit does not change the piece type. -/
theorem or64_and7 : ∀ x, x < 256 → (x ||| 64) &&& 7 = x &&& 7 := by decide

/-- Setting the dot bit does not change the color bit. -/
theorem or64_bit3 : ∀ x, x < 256 → ((x ||| 64) >>> 3) &&& 1 = (x >>> 3) &&& 1 := by decide

/-- Setting the dot bit does not change the unmoved/orientation bit. -/
theorem or64_bit4 : ∀ x, x < 256 → ((x ||| 64) >>> 4) &&& 1 = (x >>> 4) &&& 1 := by decide

/-- Setting the dot bit does not change the en-passant bit. -/
theorem or64_bit5 : ∀ x, x < 256 → ((x ||| 64) >>> 5) &&& 1 = (x >>> 5) &&& 1 := by decide

/-- Setting the dot bit sets the dot bit. -/
theorem or64_bit6 : ∀ x, x < 256 → ((x ||| 64) >>> 6) &&& 1 = 1 := by decide

/-- Setting the dot bit twice is the same as setting it once. -/
theorem or64_or64 : ∀ x, x < 256 → (x ||| 64) ||| 64 = x ||| 64 := by decide

/-- The &= 0xdf and &= 0xbf masks keep the value a byte. -/
theorem ds_lt : ∀ x, x < 256 → (x &&& 223) &&& 191 < 256 := by decide

/-- The two clearing masks keep the piece type. -/
theorem ds_and7 : ∀ x, x < 256 → ((x &&& 223) &&& 191) &&& 7 = x &&& 7 := by decide

/-- The two clearing masks keep the color bit. -/
theorem ds_bit3 : ∀ x, x < 256 → (((x &&& 223) &&& 191) >>> 3) &&& 1 = (x >>> 3) &&& 1 := by
  decide

/-- The two clearing masks keep the unmoved/orientation bit. -/
theorem ds_bit4 : ∀ x, x < 256 → (((x &&& 223) &&& 191) >>> 4) &&& 1 = (x >>> 4) &&& 1 := by
  decide

/-- The two clearing masks clear the en-passant bit. -/
theorem ds_bit5 : ∀ x, x < 256 → (((x &&& 223) &&& 191) >>> 5) &&& 1 = 0 := by decide

/-- The two clearing masks clear the dot bit. -/
theorem ds_bit6 : ∀ x, x < 256 → (((x &&& 223) &&& 191) >>> 6) &&& 1 = 0 := by decide

/-- The two clearing masks keep the selected bit. -/
theorem ds_bit7 : ∀ x, x < 256 → ((x &&& 223) &&& 191) >>> 7 = x >>> 7 := by decide

/-- The two clearing masks keep bit 3 as a mask. -/
theorem ds_and8 : ∀ x, x < 256 → ((x &&& 223) &&& 191) &&& 8 = x &&& 8 := by decide

/-- The en-passant clearing mask keeps the selected bit. -/
theorem ep_bit7 : ∀ x, x < 256 → (x &&& 223) >>> 7 = x >>> 7 := by decide

/-- The en-passant clearing mask keeps the value a byte. -/
theorem ep_lt : ∀ x, x < 256 → x &&& 223 < 256 := by decide

/-- The en-passant clearing mask clears the en-passant bit. -/
theorem ep_bit5 : ∀ x, x < 256 → ((x &&& 223) >>> 5) &&& 1 = 0 := by decide

/-- & 31 clears the en-passant bit. -/
theorem and31_bit5 : ∀ x, x < 256 → ((x &&& 31) >>> 5) &&& 1 = 0 := by decide

/-- & 31 clears the dot bit. -/
theorem and31_bit6 : ∀ x, x < 256 → ((x &&& 31) >>> 6) &&& 1 = 0 := by decide

/-- & 31 clears the selected bit. -/
theorem and31_bit7 : ∀ x, x < 256 → (x &&& 31) >>> 7 = 0 := by decide

/-- & 31 keeps the value a byte. -/
theorem and31_lt : ∀ x, x < 256 → x &&& 31 < 256 := by decide

/-- | 32 on a & 31 value sets the en-passant bit. -/
theorem or32_bit5 : ∀ x, x < 256 → (((x &&& 31) ||| 32) >>> 5) &&& 1 = 1 := by decide

/-- | 32 on a & 31 value leaves the dot bit clear. -/
theorem or32_bit6 : ∀ x, x < 256 → (((x &&& 31) ||| 32) >>> 6) &&& 1 = 0 := by decide

/-- | 32 on a & 31 value leaves the selected bit clear. -/
theorem or32_bit7 : ∀ x, x < 256 → ((x &&& 31) ||| 32) >>> 7 = 0 := by decide

/-- | 32 on a & 31 value is a byte. -/
theorem or32_lt : ∀ x, x < 256 → (x &&& 31) ||| 32 < 256 := by decide

/-- & 15 keeps the piece type. -/
theorem and15_and7 : ∀ x, x < 256 → (x &&& 15) &&& 7 = x &&& 7 := by decide

/-- & 15 keeps the color bit. -/
theorem and15_bit3 : ∀ x, x < 256 → ((x &&& 15) >>> 3) &&& 1 = (x >>> 3) &&& 1 := by decide

/-- & 15 clears the unmoved flag. -/
theorem and15_bit4 : ∀ x, x < 256 → ((x &&& 15) >>> 4) &&& 1 = 0 := by decide

/-- & 15 clears the en-passant bit. -/
theorem and15_bit5 : ∀ x, x < 256 → ((x &&& 15) >>> 5) &&& 1 = 0 := by decide

/-- & 15 clears the dot bit. -/
theorem and15_bit6 : ∀ x, x < 256 → ((x &&& 15) >>> 6) &&& 1 = 0 := by decide

/-- & 15 clears the selected bit. -/
theorem and15_bit7 : ∀ x, x < 256 → (x &&& 15) >>> 7 = 0 := by decide

/-- & 15 keeps the value a byte. -/
theorem and15_lt : ∀ x, x < 256 → x &&& 15 < 256 := by decide

/-- & 63 leaves bit 5 unchanged. -/
theorem and63_bit5 : ∀ x, x < 256 → ((x &&& 63) >>> 5) &&& 1 = (x >>> 5) &&& 1 := by decide

/-- & 63 clears the dot bit. -/
theorem and63_bit6 : ∀ x, x < 256 → ((x &&& 63) >>> 6) &&& 1 = 0 := by decide

/-- & 63 clears the selected bit. -/
theorem and63_bit7 : ∀ x, x < 256 → (x &&& 63) >>> 7 = 0 := by decide

/-- & 63 keeps the value a byte. -/
theorem and63_lt : ∀ x, x < 256 → x &&& 63 < 256 := by decide

/-- The promotion byte (x & 8) | QUEEN has piece type QUEEN. -/
theorem promo_and7 : ∀ x, x < 256 → ((x &&& 8) ||| 5) &&& 7 = 5 := by decide

/-- The promotion byte keeps the color bit of the pawn. -/
theorem promo_bit3 : ∀ x, x < 256 → (((x &&& 8) ||| 5) >>> 3) &&& 1 = (x >>> 3) &&& 1 := by
  decide

/-- The promotion byte has bits 5, 6 and 7 clear. -/
theorem promo_high : ∀ x, x < 256 → (((x &&& 8) ||| 5) >>> 5) &&& 1 = 0
    ∧ (((x &&& 8) ||| 5) >>> 6) &&& 1 = 0 ∧ ((x &&& 8) ||| 5) >>> 7 = 0 := by decide

/-- The promotion byte is a byte. -/
theorem promo_lt : ∀ x, x < 256 → (x &&& 8) ||| 5 < 256 := by decide

/-- & 7 is reduction mod 8 on bytes. -/
theorem and7_mod8 : ∀ x, x < 256 → x &&& 7 = x % 8 := by decide

/-- & 0xf8 rounds a byte down to its rank start. -/
theorem and248_eq : ∀ x, x < 256 → x &&& 248 = x - x % 8 := by decide

/-- A byte shifted right by 7 is its top bit. -/
theorem bit7_cases : ∀ x, x < 256 → x >>> 7 = 0 ∨ x >>> 7 = 1 := by decide

/-! ### Basic board lemmas -/

theorem setSq_same (b : Board) (n v : Nat) : setSq b n v n = v := by simp [setSq]

theorem setSq_ne (b : Board) {k n : Nat} (h : k ≠ n) (v : Nat) : setSq b n v k = b k := by
  simp [setSq, h]

theorem isByte_setSq {b : Board} (hb : isByte b) {n v : Nat} (hv : v < 256) :
    isByte (setSq b n v) := by
  intro k
  by_cases h : k = n <;> simp [setSq, h, hv, hb k]

theorem isByte_removeDots {b : Board} (hb : isByte b) : isByte (removeDots b) := by
  intro k
  by_cases h : k < 64 <;> simp [removeDots, h, hb k]
  exact lt_of_le_of_lt (Nat.and_le_left) (hb k)

theorem isByte_epClearAll {b : Board} (hb : isByte b) : isByte (epClearAll b) := by
  intro k
  by_cases h : k < 64 <;> simp [epClearAll, h, hb k]
  exact lt_of_le_of_lt (Nat.and_le_left) (hb k)

theorem isByte_ofList : ∀ l : List Nat, (∀ v ∈ l, v < 256) → isByte (ofList l)
  | [], _ => by intro k; simp [ofList]
  | v :: t, h => by
    intro k
    cases k with
    | zero => simpa [ofList] using h v (by simp)
    | succ k =>
      have ht := isByte_ofList t (fun x hx => h x (by simp [hx]))
      simpa [ofList] using ht k

theorem sameCore_refl (b : Board) : sameCore b b := fun _ => ⟨rfl, rfl, rfl, rfl⟩

theorem sameCore_trans {a b c : Board} (h1 : sameCore a b) (h2 : sameCore b c) :
    sameCore a c := by
  intro k
  obtain ⟨p1, q1, r1, s1⟩ := h1 k
  obtain ⟨p2, q2, r2, s2⟩ := h2 k
  exact ⟨p2.trans p1, q2.trans q1, r2.trans r1, s2.trans s1⟩

theorem sameCore_setOr64 {b : Board} (hb : isByte b) (n : Nat) :
    sameCore b (setSq b n (b n ||| 64)) := by
  intro k
  by_cases h : k = n
  · subst h
    simp [setSq_same, or64_and7 _ (hb k), or64_bit3 _ (hb k), or64_bit4 _ (hb k),
      or64_bit5 _ (hb k)]
  · simp [setSq_ne b h]

theorem dotSquare_fst_ne {b : Board} (pos : Nat) {k n : Nat} (h : k ≠ n) :
    (dotSquare b pos n).1 k = b k := by
  unfold dotSquare
  split
  · simpa using setSq_ne b h _
  · split
    · simpa using setSq_ne b h _
    · rfl

theorem isByte_dotSquare {b : Board} (hb : isByte b) (pos n : Nat) :
    isByte (dotSquare b pos n).1 := by
  unfold dotSquare
  split
  · exact isByte_setSq hb (byte_or64 _ (hb n))
  · split
    · exact isByte_setSq hb (byte_or64 _ (hb n))
    · exact hb

theorem sameCore_dotSquare {b : Board} (hb : isByte b) (pos n : Nat) :
    sameCore b (dotSquare b pos n).1 := by
  unfold dotSquare
  split
  · exact sameCore_setOr64 hb n
  · split
    · exact sameCore_setOr64 hb n
    · exact sameCore_refl b

theorem dotIf_ne (c : Prop) [Decidable c] {b : Board} (pos : Nat) {k n : Nat} (h : k ≠ n) :
    dotIf c b pos n k = b k := by
  unfold dotIf
  split
  · exact dotSquare_fst_ne pos h
  · rfl

theorem isByte_dotIf (c : Prop) [Decidable c] {b : Board} (hb : isByte b) (pos n : Nat) :
    isByte (dotIf c b pos n) := by
  unfold dotIf
  split
  · exact isByte_dotSquare hb pos n
  · exact hb

theorem sameCore_dotIf (c : Prop) [Decidable c] {b : Board} (hb : isByte b) (pos n : Nat) :
    sameCore b (dotIf c b pos n) := by
  unfold dotIf
  split
  · exact sameCore_dotSquare hb pos n
  · exact sameCore_refl b

theorem setDotIf_ne (c : Prop) [Decidable c] {b : Board} {k n : Nat} (h : k ≠ n) :
    setDotIf c b n k = b k := by
  unfold setDotIf
  split
  · exact setSq_ne b h _
  · rfl

theorem isByte_setDotIf (c : Prop) [Decidable c] {b : Board} (hb : isByte b) (n : Nat) :
    isByte (setDotIf c b n) := by
  unfold setDotIf
  split
  · exact isByte_setSq hb (byte_or64 _ (hb n))
  · exact hb

theorem sameCore_setDotIf (c : Prop) [Decidable c] {b : Board} (hb : isByte b) (n : Nat) :
    sameCore b (setDotIf c b n) := by
  unfold setDotIf
  split
  · exact sameCore_setOr64 hb n
  · exact sameCore_refl b

theorem addDots_nil (b : Board) : addDots [] b = b := by
  funext k
  simp [addDots]

theorem isByte_addDots {b : Board} (hb : isByte b) (l : List Nat) : isByte (addDots l b) := by
  intro k
  by_cases h : k ∈ l <;> simp [addDots, h, hb k, byte_or64 _ (hb k)]

theorem sameCore_addDots {b : Board} (hb : isByte b) (l : List Nat) :
    sameCore b (addDots l b) := by
  intro k
  by_cases h : k ∈ l <;>
    simp [addDots, h, or64_and7 _ (hb k), or64_bit3 _ (hb k), or64_bit4 _ (hb k),
      or64_bit5 _ (hb k)]

theorem addDots_setOr64 {b : Board} (hb : isByte b) (j : Nat) (l : List Nat) :
    addDots l (setSq b j (b j ||| 64)) = addDots (j :: l) b := by
  funext k
  by_cases hk : k = j
  · subst hk
    by_cases hl : k ∈ l <;> simp [addDots, setSq_same, hl, or64_or64 _ (hb k)]
  · by_cases hl : k ∈ l <;> simp [addDots, setSq_ne b hk, hl, hk]

theorem addDots_addDots {b : Board} (hb : isByte b) (l1 l2 : List Nat) :
    addDots l1 (addDots l2 b) = addDots (l1 ++ l2) b := by
  funext k
  by_cases h1 : k ∈ l1 <;> by_cases h2 : k ∈ l2 <;>
    simp [addDots, h1, h2, or64_or64 _ (hb k)]

theorem addDots_bit6 {b : Board} (hb : isByte b) (l : List Nat) (n : Nat) :
    ((addDots l b n >>> 6) &&& 1 = 1 ↔ n ∈ l ∨ (b n >>> 6) &&& 1 = 1) := by
  by_cases h : n ∈ l <;> simp [addDots, h, or64_bit6 _ (hb n)]

theorem raySpec_congr {b c : Board} (h : sameCore b c) (pos : Nat) :
    ∀ l : List Nat, raySpec c pos l = raySpec b pos l
  | [] => rfl
  | j :: rest => by
    obtain ⟨h7, h3, -, -⟩ := h j
    obtain ⟨-, h3p, -, -⟩ := h pos
    unfold raySpec
    rw [h7, h3, h3p, raySpec_congr h pos rest]

/-- A sliding loop dots exactly the squares raySpec reads off its path. -/
theorem dotRay_eq (pos d : Nat) (g : Nat → Bool) :
    ∀ (fuel j : Nat) (b : Board), isByte b →
      dotRay pos d g fuel j b = addDots (raySpec b pos (rayPath d g fuel j)) b
  | 0, j, b, _ => by simp [dotRay, rayPath, raySpec, addDots_nil]
  | fuel + 1, j, b, hb => by
    by_cases hg : g j = true
    · rw [show rayPath d g (fuel + 1) j = j :: rayPath d g fuel ((j + d) % 256) from by
        simp [rayPath, hg]]
      by_cases h7 : b j &&& 7 = 0
      · have hds : dotSquare b pos j = (setSq b j (b j ||| 64), 1) := by
          simp [dotSquare, NONE, h7]
        have hb2 : isByte (setSq b j (b j ||| 64)) := isByte_setSq hb (byte_or64 _ (hb j))
        calc dotRay pos d g (fuel + 1) j b
            = dotRay pos d g fuel ((j + d) % 256) (setSq b j (b j ||| 64)) := by
              simp [dotRay, hg, hds]
          _ = addDots (raySpec (setSq b j (b j ||| 64)) pos
                (rayPath d g fuel ((j + d) % 256))) (setSq b j (b j ||| 64)) :=
              dotRay_eq pos d g fuel ((j + d) % 256) _ hb2
          _ = addDots (raySpec b pos (rayPath d g fuel ((j + d) % 256)))
                (setSq b j (b j ||| 64)) := by
              rw [raySpec_congr (sameCore_setOr64 hb j) pos]
          _ = addDots (j :: raySpec b pos (rayPath d g fuel ((j + d) % 256))) b :=
              addDots_setOr64 hb j _
          _ = addDots (raySpec b pos (j :: rayPath d g fuel ((j + d) % 256))) b := by
              simp [raySpec, h7]
      · by_cases hcol : b pos >>> 3 % 2 = b j >>> 3 % 2
        · have hds : dotSquare b pos j = (b, 0) := by
            simp [dotSquare, NONE, h7, Nat.and_one_is_mod, hcol]
          rw [show dotRay pos d g (fuel + 1) j b = b from by simp [dotRay, hg, hds]]
          rw [show raySpec b pos (j :: rayPath d g fuel ((j + d) % 256)) = [] from by
            simp [raySpec, h7, Nat.and_one_is_mod, hcol]]
          rw [addDots_nil]
        · have hds : dotSquare b pos j = (setSq b j (b j ||| 64), 2) := by
            simp [dotSquare, NONE, h7, Nat.and_one_is_mod, hcol]
          rw [show dotRay pos d g (fuel + 1) j b = setSq b j (b j ||| 64) from by
            simp [dotRay, hg, hds]]
          rw [show raySpec b pos (j :: rayPath d g fuel ((j + d) % 256)) = [j] from by
            simp [raySpec, h7, Nat.and_one_is_mod, hcol]]
          funext k
          by_cases hk : k = j <;> simp [addDots, setSq, hk]
    · rw [show rayPath d g (fuel + 1) j = [] from by simp [rayPath, hg]]
      rw [show dotRay pos d g (fuel + 1) j b = b from by simp [dotRay, hg]]
      rw [show raySpec b pos ([] : List Nat) = [] from rfl, addDots_nil]

/-- Membership in the dotted squares of one ray: n is dotted exactly when
    it lies on the visited path, every path square strictly before it is
    empty, and n itself is empty or holds the opposing color. -/
theorem raySpec_mem (b : Board) (pos : Nat) :
    ∀ (l : List Nat) (n : Nat),
      n ∈ raySpec b pos l ↔
        ∃ l1 l2, l = l1 ++ n :: l2 ∧ (∀ m ∈ l1, b m &&& 7 = 0) ∧
          (b n &&& 7 = 0 ∨ (b pos >>> 3) &&& 1 ≠ (b n >>> 3) &&& 1)
  | [], n => by
    constructor
    · intro h
      simp [raySpec] at h
    · rintro ⟨l1, l2, hl, -, -⟩
      cases l1 <;> simp_all
  | j :: rest, n => by
    by_cases h7 : b j &&& 7 = 0
    · have e : raySpec b pos (j :: rest) = j :: raySpec b pos rest := by
        simp only [raySpec]
        rw [if_pos h7]
      rw [e]
      constructor
      · intro hn
        rcases List.mem_cons.1 hn with hj | hr
        · subst hj
          exact ⟨[], rest, rfl, by simp, Or.inl h7⟩
        · obtain ⟨l1, l2, hl, hall, hcond⟩ := (raySpec_mem b pos rest n).1 hr
          refine ⟨j :: l1, l2, by simp [hl], ?_, hcond⟩
          intro m hm
          rcases List.mem_cons.1 hm with rfl | hm2
          · exact h7
          · exact hall m hm2
      · rintro ⟨l1, l2, hl, hall, hcond⟩
        cases l1 with
        | nil =>
          simp only [List.nil_append, List.cons.injEq] at hl
          rw [hl.1]
          simp
        | cons a l1t =>
          simp only [List.cons_append, List.cons.injEq] at hl
          obtain ⟨rfl, hl2⟩ := hl
          exact List.mem_cons_of_mem _ ((raySpec_mem b pos rest n).2
            ⟨l1t, l2, hl2, fun m hm => hall m (List.mem_cons_of_mem _ hm), hcond⟩)
    · by_cases hcol : (b pos >>> 3) &&& 1 ≠ (b j >>> 3) &&& 1
      · have e : raySpec b pos (j :: rest) = [j] := by
          unfold raySpec
          rw [if_neg h7, if_pos hcol]
        rw [e]
        constructor
        · intro hn
          have hn2 : n = j := by simpa using hn
          subst hn2
          exact ⟨[], rest, rfl, by simp, Or.inr hcol⟩
        · rintro ⟨l1, l2, hl, hall, hcond⟩
          cases l1 with
          | nil =>
            simp only [List.nil_append, List.cons.injEq] at hl
            simp [hl.1]
          | cons a l1t =>
            simp only [List.cons_append, List.cons.injEq] at hl
            obtain ⟨rfl, -⟩ := hl
            exact absurd (hall j (by simp)) h7
      · have e : raySpec b pos (j :: rest) = [] := by
          unfold raySpec
          rw [if_neg h7, if_neg hcol]
        rw [e]
        constructor
        · intro h
          simp at h
        · rintro ⟨l1, l2, hl, hall, hcond⟩
          exfalso
          cases l1 with
          | nil =>
            simp only [List.nil_append, List.cons.injEq] at hl
            obtain ⟨rfl, -⟩ := hl
            rcases hcond with hc | hc
            · exact h7 hc
            · exact hcol hc
          | cons a l1t =>
            simp only [List.cons_append, List.cons.injEq] at hl
            obtain ⟨rfl, -⟩ := hl
            exact h7 (hall j (by simp))

/-- Running a sliding loop on a board with extra dots adds its raySpec
    squares to the dot set. -/
theorem dotRay_addDots (pos d : Nat) (g : Nat → Bool) (j : Nat) {b : Board}
    (hb : isByte b) (L : List Nat) :
    dotRay pos d g 64 j (addDots L b) =
      addDots (raySpec b pos (rayPath d g 64 j) ++ L) b := by
  rw [dotRay_eq pos d g 64 j _ (isByte_addDots hb L),
    raySpec_congr (sameCore_addDots hb L) pos, addDots_addDots hb]

/-- dotDiagonals dots exactly the raySpec squares of the four diagonal rays. -/
theorem dotDiagonals_eq {b : Board} (hb : isByte b) (i : Nat) :
    dotDiagonals b i =
      addDots (raySpec b i (rayPath 9 gF0 64 ((i + 9) % 256))
        ++ (raySpec b i (rayPath 7 gF7 64 ((i + 7) % 256))
          ++ (raySpec b i (rayPath 249 gF0 64 ((i + 249) % 256))
            ++ raySpec b i (rayPath 247 gF7 64 ((i + 247) % 256))))) b := by
  unfold dotDiagonals
  rw [dotRay_eq i 247 gF7 64 ((i + 247) % 256) b hb,
    dotRay_addDots i 249 gF0 _ hb _, dotRay_addDots i 7 gF7 _ hb _,
    dotRay_addDots i 9 gF0 _ hb _]

/-- The rook loops on a board with extra dots add the raySpec squares of
    the four orthogonal rays. -/
theorem dotStraights_addDots (i : Nat) {b : Board} (hb : isByte b) (L : List Nat) :
    dotStraights (addDots L b) i =
      addDots (raySpec b i (rayPath 8 gIn 64 ((i + 8) % 256))
        ++ (raySpec b i (rayPath 1 gH0 64 ((i + 1) % 256))
          ++ (raySpec b i (rayPath 255 gH7 64 ((i + 255) % 256))
            ++ (raySpec b i (rayPath 248 gIn 64 ((i + 248) % 256)) ++ L)))) b := by
  unfold dotStraights
  rw [dotRay_addDots i 248 gIn _ hb _, dotRay_addDots i 255 gH7 _ hb _,
    dotRay_addDots i 1 gH0 _ hb _, dotRay_addDots i 8 gIn _ hb _]

/-- dotStraights dots exactly the raySpec squares of the four orthogonal rays. -/
theorem dotStraights_eq {b : Board} (hb : isByte b) (i : Nat) :
    dotStraights b i =
      addDots (raySpec b i (rayPath 8 gIn 64 ((i + 8) % 256))
        ++ (raySpec b i (rayPath 1 gH0 64 ((i + 1) % 256))
          ++ (raySpec b i (rayPath 255 gH7 64 ((i + 255) % 256))
            ++ raySpec b i (rayPath 248 gIn 64 ((i + 248) % 256))))) b := by
  have h := dotStraights_addDots i hb []
  rw [addDots_nil] at h
  simpa using h

/-- Dispatch of calculateMoves for a bishop. -/
theorem calculateMoves_bishop {b : Board} {i : Nat} (h : b i &&& 7 = BISHOP) :
    calculateMoves b i = dotDiagonals b i := by
  unfold calculateMoves
  rw [h]
  simp [PAWN, KNIGHT, BISHOP, QUEEN, ROOK, KING]

/-- Dispatch of calculateMoves for a rook. -/
theorem calculateMoves_rook {b : Board} {i : Nat} (h : b i &&& 7 = ROOK) :
    calculateMoves b i = dotStraights b i := by
  unfold calculateMoves
  rw [h]
  simp [PAWN, KNIGHT, BISHOP, QUEEN, ROOK, KING]

/-- Dispatch of calculateMoves for a queen: diagonals, then the rook loops
    by fallthrough. -/
theorem calculateMoves_queen {b : Board} {i : Nat} (h : b i &&& 7 = QUEEN) :
    calculateMoves b i = dotStraights (dotDiagonals b i) i := by
  unfold calculateMoves
  rw [h]
  simp [PAWN, KNIGHT, BISHOP, QUEEN, ROOK, KING]

theorem pieceRays_bishop (i : Nat) : pieceRays BISHOP i = bishopRays i := by
  simp [pieceRays]

theorem pieceRays_rook (i : Nat) : pieceRays ROOK i = rookRays i := by
  simp [pieceRays, ROOK, BISHOP]

theorem pieceRays_queen (i : Nat) : pieceRays QUEEN i = bishopRays i ++ rookRays i := by
  simp [pieceRays, QUEEN, BISHOP, ROOK]

/-- C8: for a Bishop, Rook or Queen at square i, calculateMoves dots a
    square n (beyond any dot already present) exactly when n lies on one of
    the piece's rays, every ray square strictly before n is empty, and n is
    empty or holds the opposing color — so no square beyond the first
    occupied square of a ray is ever marked, and the first occupied square
    is marked exactly when it holds the opposing color. -/
theorem c8_sliding_first_blocker (b : Board) (i : Nat) (hb : isByte b)
    (hp : b i &&& 7 = BISHOP ∨ b i &&& 7 = ROOK ∨ b i &&& 7 = QUEEN) (n : Nat) :
    ((calculateMoves b i n >>> 6) &&& 1 = 1 ↔
      (b n >>> 6) &&& 1 = 1 ∨
        ∃ r ∈ pieceRays (b i &&& 7) i, ∃ l1 l2, r = l1 ++ n :: l2 ∧
          (∀ m ∈ l1, b m &&& 7 = NONE) ∧
          (b n &&& 7 = NONE ∨ (b i >>> 3) &&& 1 ≠ (b n >>> 3) &&& 1)) := by
  rcases hp with h | h | h
  · rw [calculateMoves_bishop h, dotDiagonals_eq hb i, h, pieceRays_bishop,
      addDots_bit6 hb]
    simp only [bishopRays, List.mem_append, raySpec_mem, List.mem_cons,
      List.not_mem_nil, or_false, NONE, or_assoc, exists_eq_or_imp, exists_eq_left]
    constructor
    · rintro (h1 | h1 | h1 | h1 | h1)
      · exact Or.inr (Or.inr (Or.inr (Or.inr h1)))
      · exact Or.inr (Or.inr (Or.inr (Or.inl h1)))
      · exact Or.inr (Or.inr (Or.inl h1))
      · exact Or.inr (Or.inl h1)
      · exact Or.inl h1
    · rintro (h1 | h1 | h1 | h1 | h1)
      · exact Or.inr (Or.inr (Or.inr (Or.inr h1)))
      · exact Or.inr (Or.inr (Or.inr (Or.inl h1)))
      · exact Or.inr (Or.inr (Or.inl h1))
      · exact Or.inr (Or.inl h1)
      · exact Or.inl h1
  · rw [calculateMoves_rook h, dotStraights_eq hb i, h, pieceRays_rook,
      addDots_bit6 hb]
    simp only [rookRays, List.mem_append, raySpec_mem, List.mem_cons,
      List.not_mem_nil, or_false, NONE, or_assoc, exists_eq_or_imp, exists_eq_left]
    constructor
    · rintro (h1 | h1 | h1 | h1 | h1)
      · exact Or.inr (Or.inr (Or.inr (Or.inr h1)))
      · exact Or.inr (Or.inr (Or.inr (Or.inl h1)))
      · exact Or.inr (Or.inr (Or.inl h1))
      · exact Or.inr (Or.inl h1)
      · exact Or.inl h1
    · rintro (h1 | h1 | h1 | h1 | h1)
      · exact Or.inr (Or.inr (Or.inr (Or.inr h1)))
      · exact Or.inr (Or.inr (Or.inr (Or.inl h1)))
      · exact Or.inr (Or.inr (Or.inl h1))
      · exact Or.inr (Or.inl h1)
      · exact Or.inl h1
  · rw [calculateMoves_queen h, dotDiagonals_eq hb i, dotStraights_addDots i hb _,
      addDots_bit6 hb, h, pieceRays_queen]
    simp only [bishopRays, rookRays, List.mem_append, raySpec_mem, List.mem_cons,
      List.not_mem_nil, or_false, NONE, or_assoc, exists_eq_or_imp, exists_eq_left]
    constructor
    · rintro (h1 | h1 | h1 | h1 | h1 | h1 | h1 | h1 | h1)
      · exact Or.inr (Or.inr (Or.inr (Or.inr (Or.inr (Or.inr (Or.inr (Or.inr h1)))))))
      · exact Or.inr (Or.inr (Or.inr (Or.inr (Or.inr (Or.inr (Or.inr (Or.inl h1)))))))
      · exact Or.inr (Or.inr (Or.inr (Or.inr (Or.inr (Or.inr (Or.inl h1))))))
      · exact Or.inr (Or.inr (Or.inr (Or.inr (Or.inr (Or.inl h1)))))
      · exact Or.inr (Or.inr (Or.inr (Or.inr (Or.inl h1))))
      · exact Or.inr (Or.inr (Or.inr (Or.inl h1)))
      · exact Or.inr (Or.inr (Or.inl h1))
      · exact Or.inr (Or.inl h1)
      · exact Or.inl h1
    · rintro (h1 | h1 | h1 | h1 | h1 | h1 | h1 | h1 | h1)
      · exact Or.inr (Or.inr (Or.inr (Or.inr (Or.inr (Or.inr (Or.inr (Or.inr h1)))))))
      · exact Or.inr (Or.inr (Or.inr (Or.inr (Or.inr (Or.inr (Or.inr (Or.inl h1)))))))
      · exact Or.inr (Or.inr (Or.inr (Or.inr (Or.inr (Or.inr (Or.inl h1))))))
      · exact Or.inr (Or.inr (Or.inr (Or.inr (Or.inr (Or.inl h1)))))
      · exact Or.inr (Or.inr (Or.inr (Or.inr (Or.inl h1))))
      · exact Or.inr (Or.inr (Or.inr (Or.inl h1)))
      · exact Or.inr (Or.inr (Or.inl h1))
      · exact Or.inr (Or.inl h1)
      · exact Or.inl h1

/-- Witness for C8 at the enemy pawn square 41 of the test position. -/
theorem c8_sliding_first_blocker_w :
    ((calculateMoves c8Board 27 41 >>> 6) &&& 1 = 1 ↔
      (c8Board 41 >>> 6) &&& 1 = 1 ∨
        ∃ r ∈ pieceRays (c8Board 27 &&& 7) 27, ∃ l1 l2, r = l1 ++ 41 :: l2 ∧
          (∀ m ∈ l1, c8Board m &&& 7 = NONE) ∧
          (c8Board 41 &&& 7 = NONE ∨ (c8Board 27 >>> 3) &&& 1 ≠ (c8Board 41 >>> 3) &&& 1)) :=
  c8_sliding_first_blocker c8Board 27
    (by unfold c8Board; exact isByte_ofList _ (by decide)) (Or.inl (by decide)) 41

/-- C1: the double-step dot at i+16 is placed even though the intervening
    square i+8 is occupied — the source checks only the target square, so a
    pawn may jump over a blocking piece. -/
theorem c1_double_step_ignores_blocker :
    c1Board 12 &&& 7 = PAWN ∧ (c1Board 12 >>> 4) &&& 1 = 1 ∧
    c1Board 20 &&& 7 ≠ NONE ∧ c1Board 28 &&& 7 = NONE ∧
    (calculateMoves c1Board 12 28 >>> 6) &&& 1 = 1 := by decide

/-- C2: the en-passant disjunct dots the diagonal square without looking at
    its occupant, so a square holding a piece of the mover's own color gets
    the candidate mark. -/
theorem c2_en_passant_dots_own_piece :
    c2Board 25 &&& 7 ≠ NONE ∧ (c2Board 25 >>> 3) &&& 1 = (c2Board 16 >>> 3) &&& 1 ∧
    (calculateMoves c2Board 16 25 >>> 6) &&& 1 = 1 := by decide

/-- C3 counterexample: the castling candidate at 57 is marked although the
    unmoved rook at the home corner has the opposite color from the king —
    the source never compares the rook's color. -/
theorem c3_castles_toward_enemy_rook :
    c3Board 59 &&& 7 = KING ∧ (c3Board 59 >>> 4) &&& 1 = 1 ∧
    c3Board 56 &&& 7 = ROOK ∧ (c3Board 56 >>> 4) &&& 1 = 1 ∧
    (c3Board 56 >>> 3) &&& 1 ≠ (c3Board 59 >>> 3) &&& 1 ∧
    c3Board 57 &&& 7 = NONE ∧ c3Board 58 &&& 7 = NONE ∧
    (calculateMoves c3Board 59 57 >>> 6) &&& 1 = 1 := by decide

/-! ### The scratch-board legality check (C5) -/

/-- The verifyMove scan only ever returns the C values 0 and 1. -/
theorem verifyAux_boolean (next : Nat) :
    ∀ (l : List Nat) (b2 : Board), verifyAux next l b2 = 0 ∨ verifyAux next l b2 = 1
  | [], _ => Or.inr rfl
  | j :: rest, b2 => by
    rw [verifyAux]
    split
    · by_cases hk : kingDotted (calculateMoves b2 j)
      · simp [hk]
      · simp only [hk, if_false]
        exact verifyAux_boolean next rest _
    · exact verifyAux_boolean next rest b2

/-- C5: verifyMove returns a boolean legal/illegal result, and the caller's
    board after the call is byte-for-byte the board that was passed in: the
    simulation happens on the stack-local scratch copy only, which is
    dropped when the function returns. -/
theorem c5_verify_frame (b : Board) (i next : Nat) :
    (verifyMove b i next).2 = b ∧
      ((verifyMove b i next).1 = 0 ∨ (verifyMove b i next).1 = 1) :=
  ⟨rfl, verifyAux_boolean next (List.range 64) _⟩

/-! ### Smallness facts for masked square values -/

theorem shr_small {x n : Nat} (h : x < 2 ^ n) : x >>> n = 0 := by
  rw [Nat.shiftRight_eq_div_pow]
  exact Nat.div_eq_of_lt h

theorem and_shr0 {m n : Nat} (x : Nat) (h : m < 2 ^ n) : (x &&& m) >>> n = 0 :=
  shr_small (lt_of_le_of_lt Nat.and_le_right h)

theorem and_shr_bit0 {m n : Nat} (x : Nat) (h : m < 2 ^ n) :
    ((x &&& m) >>> n) &&& 1 = 0 := by
  rw [and_shr0 x h]
  rfl

/-! ### The selected-piece scan -/

theorem selScan_bounds {b : Board} :
    ∀ {fuel s j : Nat}, selScan b s fuel = some j →
      s ≤ j ∧ j < s + fuel ∧ b j >>> 7 ≠ 0
  | 0, s, j => by simp [selScan]
  | fuel + 1, s, j => by
    rw [selScan]
    by_cases h : b s >>> 7 = 0
    · rw [if_pos h]
      intro hs
      obtain ⟨h1, h2, h3⟩ := selScan_bounds hs
      exact ⟨by omega, by omega, h3⟩
    · rw [if_neg h]
      intro hs
      obtain rfl : s = j := by simpa using hs
      exact ⟨le_refl s, by omega, h⟩

/-- A successful scan stops inside the 64-byte array, on a selected square. -/
theorem findSel_lt {b : Board} {j : Nat} (h : findSel b = some j) :
    j < 64 ∧ b j >>> 7 ≠ 0 := by
  obtain ⟨-, h2, h3⟩ := selScan_bounds h
  exact ⟨by omega, h3⟩

/-- The scan finds the first selected square. -/
theorem findSel_eq {b : Board} {j : Nat} (hj : j < 64) (hsel : b j >>> 7 ≠ 0)
    (hmin : ∀ k, k < j → b k >>> 7 = 0) : findSel b = some j := by
  have main : ∀ fuel s, s ≤ j → j < s + fuel → selScan b s fuel = some j := by
    intro fuel
    induction fuel with
    | zero => intro s h1 h2; omega
    | succ fuel ih =>
      intro s h1 h2
      rw [selScan]
      rcases Nat.eq_or_lt_of_le h1 with rfl | hlt
      · rw [if_neg hsel]
      · rw [if_pos (hmin s hlt)]
        exact ih (s + 1) hlt (by omega)
  exact main 64 0 (Nat.zero_le j) (by omega)

/-- The scan only looks at the selected bit, which the en-passant clearing
    mask keeps. -/
theorem selScan_bit7_congr {b c : Board} (h : ∀ k, c k >>> 7 = b k >>> 7) :
    ∀ (fuel s : Nat), selScan c s fuel = selScan b s fuel
  | 0, _ => rfl
  | fuel + 1, s => by
    rw [selScan, selScan, h s, selScan_bit7_congr h fuel (s + 1)]

theorem findSel_epClearAll {b : Board} (hb : isByte b) :
    findSel (epClearAll b) = findSel b :=
  selScan_bit7_congr (fun k => by
    by_cases hk : k < 64
    · simp only [epClearAll, if_pos hk]
      exact ep_bit7 _ (hb k)
    · simp [epClearAll, hk]) 64 0

/-- On a board with a selected square, movePiece takes the normal path
    through the switch with the scanned origin j. -/
theorem movePiece_some {b : Board} (hb : isByte b) {j : Nat}
    (h : findSel b = some j) (i : Nat) :
    movePiece b i = movePieceFrom (removeDots (epClearAll b)) i j := by
  have e : movePiece b i =
      match findSel (epClearAll b) with
      | none => epClearAll b
      | some j => movePieceFrom (removeDots (epClearAll b)) i j := rfl
  rw [e, findSel_epClearAll hb, h]

/-- The board movePiece's switch works on: both clearing loops applied. -/
theorem maskDS_apply {b : Board} (k : Nat) (hk : k < 64) :
    removeDots (epClearAll b) k = (b k &&& 223) &&& 191 := by
  simp [removeDots, epClearAll, hk]

theorem maskDS_apply_ge {b : Board} (k : Nat) (hk : ¬k < 64) :
    removeDots (epClearAll b) k = b k := by
  simp [removeDots, epClearAll, hk]

/-! ### Further byte facts for movePiece -/

theorem ds_and15 : ∀ x, x < 256 → ((x &&& 223) &&& 191) &&& 15 = x &&& 15 := by decide

theorem lt256_pow : (256 : Nat) = 2 ^ 8 := by norm_num

theorem or_lt256 {x y : Nat} (hx : x < 256) (hy : y < 256) : x ||| y < 256 := by
  rw [lt256_pow] at hx hy ⊢
  exact Nat.or_lt_two_pow hx hy

theorem isByte_movePieceFrom {B2 : Board} (hB2 : isByte B2) (i j : Nat) :
    isByte (movePieceFrom B2 i j) := by
  have hz : (NONE : Nat) < 256 := by decide
  have hand : ∀ x m, x < 256 → x &&& m < 256 := fun x m hx =>
    lt_of_le_of_lt Nat.and_le_left hx
  simp only [movePieceFrom]
  split_ifs with c1 c2 c3 c4 c5 c6 c7 c8 c9
  · exact isByte_setSq (isByte_setSq hB2 (or_lt256 (hand _ _ (hB2 j)) (by decide))) hz
  · exact isByte_setSq (isByte_setSq (isByte_setSq hB2 (hand _ _ (hB2 j))) hz) hz
  · exact isByte_setSq (isByte_setSq (isByte_setSq hB2 (hand _ _ (hB2 j))) hz) hz
  · have hbA : isByte (setSq B2 i (B2 j &&& 31)) := isByte_setSq hB2 (hand _ _ (hB2 j))
    exact isByte_setSq (isByte_setSq hbA (or_lt256 (hbA i) (by decide))) hz
  · exact isByte_setSq (isByte_setSq hB2 (hand _ _ (hB2 j))) hz
  · have h1 : isByte (setSq (setSq B2 (i + 1) (B2 (i &&& 248) &&& 15)) (i &&& 248) NONE) :=
      isByte_setSq (isByte_setSq hB2 (hand _ _ (hB2 _))) hz
    exact isByte_setSq (isByte_setSq h1 (hand _ _ (h1 j))) hz
  · have h1 : isByte (setSq (setSq B2 (j + 1) (B2 ((i &&& 248) + 7) &&& 15))
        ((i &&& 248) + 7) NONE) :=
      isByte_setSq (isByte_setSq hB2 (hand _ _ (hB2 _))) hz
    exact isByte_setSq (isByte_setSq h1 (hand _ _ (h1 j))) hz
  · exact isByte_setSq (isByte_setSq hB2 (hand _ _ (hB2 j))) hz
  · exact isByte_setSq (isByte_setSq hB2 (hand _ _ (hB2 j))) hz
  · exact isByte_setSq (isByte_setSq hB2 (hand _ _ (hB2 j))) hz

theorem isByte_movePiece {b : Board} (hb : isByte b) (i : Nat) :
    isByte (movePiece b i) := by
  have e : movePiece b i =
      match findSel (epClearAll b) with
      | none => epClearAll b
      | some j => movePieceFrom (removeDots (epClearAll b)) i j := rfl
  rw [e]
  cases hfs : findSel (epClearAll b) with
  | none => exact isByte_epClearAll hb
  | some j => exact isByte_movePieceFrom (isByte_removeDots (isByte_epClearAll hb)) i j

/-- After movePiece, every square other than the destination has the
    en-passant bit clear: the opening loop clears bit 5 board-wide, and no
    later write sets it anywhere but (possibly) the destination. -/
theorem movePiece_bit5_off_dest {b : Board} (hb : isByte b) (i : Nat) :
    ∀ k, k < 64 → k ≠ i → (movePiece b i k >>> 5) &&& 1 = 0 := by
  intro k hk64 hki
  have hB2_5 : ∀ m, m < 64 → ((removeDots (epClearAll b)) m >>> 5) &&& 1 = 0 := by
    intro m hm
    rw [maskDS_apply m hm]
    exact ds_bit5 _ (hb m)
  have e : movePiece b i =
      match findSel (epClearAll b) with
      | none => epClearAll b
      | some j => movePieceFrom (removeDots (epClearAll b)) i j := rfl
  rw [e]
  cases hfs : findSel (epClearAll b) with
  | none =>
    simp only [epClearAll, if_pos hk64]
    exact ep_bit5 _ (hb k)
  | some j =>
    simp only [movePieceFrom]
    by_cases hkj : k = j
    · subst hkj
      rw [setSq_same]
      rfl
    · rw [setSq_ne _ hkj]
      split_ifs with c1 c2 c3 c4 c5 c6 c7 c8 c9
      · rw [setSq_ne _ hki]
        exact hB2_5 k hk64
      · by_cases hkl : k = j - 1
        · subst hkl
          rw [setSq_same]
          rfl
        · rw [setSq_ne _ hkl, setSq_ne _ hki]
          exact hB2_5 k hk64
      · by_cases hkr : k = j + 1
        · subst hkr
          rw [setSq_same]
          rfl
        · rw [setSq_ne _ hkr, setSq_ne _ hki]
          exact hB2_5 k hk64
      · rw [setSq_ne _ hki, setSq_ne _ hki]
        exact hB2_5 k hk64
      · rw [setSq_ne _ hki]
        exact hB2_5 k hk64
      · rw [setSq_ne _ hki]
        by_cases hkc : k = i &&& 248
        · subst hkc
          rw [setSq_same]
          rfl
        · rw [setSq_ne _ hkc]
          by_cases hkr : k = i + 1
          · subst hkr
            rw [setSq_same]
            exact and_shr_bit0 _ (by norm_num)
          · rw [setSq_ne _ hkr]
            exact hB2_5 k hk64
      · rw [setSq_ne _ hki]
        by_cases hkc : k = (i &&& 248) + 7
        · subst hkc
          rw [setSq_same]
          rfl
        · rw [setSq_ne _ hkc]
          by_cases hkr : k = j + 1
          · subst hkr
            rw [setSq_same]
            exact and_shr_bit0 _ (by norm_num)
          · rw [setSq_ne _ hkr]
            exact hB2_5 k hk64
      · rw [setSq_ne _ hki]
        exact hB2_5 k hk64
      · rw [setSq_ne _ hki]
        exact hB2_5 k hk64
      · rw [setSq_ne _ hki]
        exact hB2_5 k hk64

/-! ### Claims about movePiece -/

/-- C7: a Pawn moved to the back rank (index < 8 or >= 56) is replaced by a
    Queen of the moving pawn's color at the destination, and the origin
    square becomes empty. -/
theorem c7_promotion (b : Board) (i j : Nat) (hb : isByte b)
    (hsel : findSel b = some j) (hp : b j &&& 7 = PAWN) (hij : i ≠ j)
    (hrank : i < 8 ∨ 56 ≤ i) :
    movePiece b i i = (b j &&& 8) ||| QUEEN ∧
    movePiece b i i &&& 7 = QUEEN ∧
    (movePiece b i i >>> 3) &&& 1 = (b j >>> 3) &&& 1 ∧
    movePiece b i j = NONE := by
  obtain ⟨hj64, -⟩ := findSel_lt hsel
  have hmv := movePiece_some hb hsel i
  have hB2j : removeDots (epClearAll b) j = (b j &&& 223) &&& 191 := maskDS_apply j hj64
  have h7 : removeDots (epClearAll b) j &&& 7 = PAWN := by
    rw [hB2j, ds_and7 _ (hb j), hp]
  have hfrom : movePieceFrom (removeDots (epClearAll b)) i j =
      setSq (setSq (removeDots (epClearAll b)) i
        ((removeDots (epClearAll b) j &&& 8) ||| QUEEN)) j NONE := by
    unfold movePieceFrom
    rw [if_pos h7, if_pos hrank]
  have h8 : removeDots (epClearAll b) j &&& 8 = b j &&& 8 := by
    rw [hB2j, ds_and8 _ (hb j)]
  have hi1 : movePiece b i i = (b j &&& 8) ||| QUEEN := by
    rw [hmv, hfrom, setSq_ne _ hij, setSq_same, h8]
  refine ⟨hi1, ?_, ?_, ?_⟩
  · rw [hi1]
    exact promo_and7 _ (hb j)
  · rw [hi1]
    exact promo_bit3 _ (hb j)
  · rw [hmv, hfrom, setSq_same]

/-- C9: with exactly one square selected, the selected-piece scan stops at
    an index strictly below 64 (it never leaves the array) and movePiece
    takes the normal switch path with that origin — no error outcome. -/
theorem c9_scan_in_bounds (b : Board) (i j : Nat) (hb : isByte b) (hj : j < 64)
    (hsel : b j >>> 7 ≠ 0) (huniq : ∀ k, k < 64 → b k >>> 7 ≠ 0 → k = j) :
    findSel b = some j ∧ j < 64 ∧
      movePiece b i = movePieceFrom (removeDots (epClearAll b)) i j := by
  have hmin : ∀ k, k < j → b k >>> 7 = 0 := by
    intro k hk
    by_contra hne
    exact absurd (huniq k (by omega) hne) (by omega)
  have hfs := findSel_eq hj hsel hmin
  exact ⟨hfs, hj, movePiece_some hb hfs i⟩

/-- C4: movePiece first clears the en-passant flag on every square; the
    destination ends up flagged exactly when the mover is a pawn that moved
    two ranks (outside the promotion ranks), every other square ends up
    unflagged, and after a second move application the flag is again gone
    from every square but the new destination — it never survives two move
    applications. -/
theorem c4_en_passant_lifecycle (b : Board) (i j : Nat) (hb : isByte b) (hi : i < 64)
    (hsel : findSel b = some j) :
    (∀ k, k < 64 → k ≠ i → (movePiece b i k >>> 5) &&& 1 = 0) ∧
    ((movePiece b i i >>> 5) &&& 1 = 1 ↔
      b j &&& 7 = PAWN ∧ (i - j = 16 ∨ j - i = 16) ∧ ¬(i < 8 ∨ 56 ≤ i)) ∧
    (∀ i2 k, k < 64 → k ≠ i2 →
      (movePiece (movePiece b i) i2 k >>> 5) &&& 1 = 0) := by
  obtain ⟨hj64, -⟩ := findSel_lt hsel
  refine ⟨movePiece_bit5_off_dest hb i, ?_,
    fun i2 => movePiece_bit5_off_dest (isByte_movePiece hb i) i2⟩
  have hB2 : isByte (removeDots (epClearAll b)) := isByte_removeDots (isByte_epClearAll hb)
  have hpiece : removeDots (epClearAll b) j &&& 7 = b j &&& 7 := by
    rw [maskDS_apply j hj64]
    exact ds_and7 _ (hb j)
  have hB2_5 : ∀ m, m < 64 → ((removeDots (epClearAll b)) m >>> 5) &&& 1 = 0 := by
    intro m hm
    rw [maskDS_apply m hm]
    exact ds_bit5 _ (hb m)
  rw [movePiece_some hb hsel i]
  set B2 := removeDots (epClearAll b) with hB2def
  simp only [movePieceFrom]
  by_cases c1 : B2 j &&& 7 = PAWN
  · rw [if_pos c1]
    by_cases c2 : i < 8 ∨ 56 ≤ i
    · rw [if_pos c2]
      apply iff_of_false
      · by_cases hij : i = j
        · subst hij
          rw [setSq_same]
          decide
        · rw [setSq_ne _ hij, setSq_same]
          simp only [QUEEN]
          rw [(promo_high _ (hB2 j)).1]
          simp
      · rintro ⟨-, -, hc⟩
        exact hc c2
    · rw [if_neg c2]
      by_cases c3 : B2 i &&& 7 = NONE ∧ j &&& 7 ≠ i &&& 7
      · rw [if_pos c3]
        have hij : i ≠ j := by
          intro h
          exact c3.2 (by rw [h])
        apply iff_of_false
        · rw [setSq_ne _ hij]
          split_ifs with c4
          · by_cases hjm : i = j - 1
            · rw [hjm, setSq_same]
              decide
            · rw [setSq_ne _ hjm, setSq_same,
                and_shr_bit0 (B2 j) (by norm_num : (31 : Nat) < 2 ^ 5)]
              simp
          · by_cases hjp : i = j + 1
            · rw [hjp, setSq_same]
              decide
            · rw [setSq_ne _ hjp, setSq_same,
                and_shr_bit0 (B2 j) (by norm_num : (31 : Nat) < 2 ^ 5)]
              simp
        · rintro ⟨-, c5, -⟩
          have hj8 : j &&& 7 = j % 8 := and7_mod8 j (by omega)
          have hi8 : i &&& 7 = i % 8 := and7_mod8 i (by omega)
          apply c3.2
          rw [hj8, hi8]
          omega
      · rw [if_neg c3]
        by_cases c5 : i - j = 16 ∨ j - i = 16
        · rw [if_pos c5]
          have hij : i ≠ j := by omega
          rw [setSq_ne _ hij, setSq_same, setSq_same, or32_bit5 _ (hB2 j)]
          exact iff_of_true rfl ⟨by rw [← hpiece]; exact c1, c5, c2⟩
        · rw [if_neg c5]
          apply iff_of_false
          · by_cases hij : i = j
            · subst hij
              rw [setSq_same]
              decide
            · rw [setSq_ne _ hij, setSq_same,
                and_shr_bit0 (B2 j) (by norm_num : (31 : Nat) < 2 ^ 5)]
              simp
          · rintro ⟨-, hc5, -⟩
            exact c5 hc5
  · rw [if_neg c1]
    apply iff_of_false
    · split_ifs with c6 c7 c8 c9
      · by_cases hij : i = j
        · subst hij
          rw [setSq_same]
          decide
        · rw [setSq_ne _ hij, setSq_same,
            and_shr_bit0 _ (by norm_num : (15 : Nat) < 2 ^ 5)]
          simp
      · by_cases hij : i = j
        · subst hij
          rw [setSq_same]
          decide
        · rw [setSq_ne _ hij, setSq_same,
            and_shr_bit0 _ (by norm_num : (15 : Nat) < 2 ^ 5)]
          simp
      · by_cases hij : i = j
        · subst hij
          rw [setSq_same]
          decide
        · rw [setSq_ne _ hij, setSq_same,
            and_shr_bit0 _ (by norm_num : (15 : Nat) < 2 ^ 5)]
          simp
      · by_cases hij : i = j
        · subst hij
          rw [setSq_same]
          decide
        · rw [setSq_ne _ hij, setSq_same,
            and_shr_bit0 _ (by norm_num : (15 : Nat) < 2 ^ 5)]
          simp
      · by_cases hij : i = j
        · subst hij
          rw [setSq_same]
          decide
        · rw [setSq_ne _ hij, setSq_same, and63_bit5 _ (hB2 j), hB2_5 j hj64]
          simp
    · rintro ⟨hc, -, -⟩
      exact c1 (by rw [hpiece]; exact hc)

/-- C10: with exactly one square selected beforehand, after movePiece no
    square has the selected bit and no square has the dot bit: the executor
    deselects and clears all candidate marks by itself. -/
theorem c10_deselect_and_clear (b : Board) (i j : Nat) (hb : isByte b) (hi : i < 64)
    (hj : j < 64) (hsel7 : b j >>> 7 ≠ 0)
    (huniq : ∀ k, k < 64 → b k >>> 7 ≠ 0 → k = j) :
    ∀ k, k < 64 → movePiece b i k >>> 7 = 0 ∧ (movePiece b i k >>> 6) &&& 1 = 0 := by
  intro k hk64
  have hmin : ∀ m, m < j → b m >>> 7 = 0 := by
    intro m hm
    by_contra hne
    exact absurd (huniq m (by omega) hne) (by omega)
  have hfs := findSel_eq hj hsel7 hmin
  rw [movePiece_some hb hfs i]
  have hB2 : isByte (removeDots (epClearAll b)) := isByte_removeDots (isByte_epClearAll hb)
  have hB2_6 : ∀ m, m < 64 → ((removeDots (epClearAll b)) m >>> 6) &&& 1 = 0 := by
    intro m hm
    rw [maskDS_apply m hm]
    exact ds_bit6 _ (hb m)
  have hB2_7 : ∀ m, m < 64 → m ≠ j → (removeDots (epClearAll b)) m >>> 7 = 0 := by
    intro m hm hmj
    rw [maskDS_apply m hm, ds_bit7 _ (hb m)]
    by_contra hne
    exact hmj (huniq m hm hne)
  set B2 := removeDots (epClearAll b) with hB2def
  simp only [movePieceFrom]
  by_cases hkj : k = j
  · subst hkj
    rw [setSq_same]
    exact ⟨by decide, by decide⟩
  · rw [setSq_ne _ hkj]
    have hrest : B2 k >>> 7 = 0 ∧ (B2 k >>> 6) &&& 1 = 0 :=
      ⟨hB2_7 k hk64 hkj, hB2_6 k hk64⟩
    split_ifs with c1 c2 c3 c4 c5 c6 c7 c8 c9
    · by_cases hki : k = i
      · subst hki
        rw [setSq_same]
        simp only [QUEEN]
        exact ⟨(promo_high _ (hB2 j)).2.2, (promo_high _ (hB2 j)).2.1⟩
      · rw [setSq_ne _ hki]
        exact hrest
    · by_cases hkm : k = j - 1
      · subst hkm
        rw [setSq_same]
        exact ⟨by decide, by decide⟩
      · rw [setSq_ne _ hkm]
        by_cases hki : k = i
        · subst hki
          rw [setSq_same]
          exact ⟨and_shr0 (B2 j) (by norm_num : (31 : Nat) < 2 ^ 7),
            and_shr_bit0 (B2 j) (by norm_num : (31 : Nat) < 2 ^ 6)⟩
        · rw [setSq_ne _ hki]
          exact hrest
    · by_cases hkm : k = j + 1
      · subst hkm
        rw [setSq_same]
        exact ⟨by decide, by decide⟩
      · rw [setSq_ne _ hkm]
        by_cases hki : k = i
        · subst hki
          rw [setSq_same]
          exact ⟨and_shr0 (B2 j) (by norm_num : (31 : Nat) < 2 ^ 7),
            and_shr_bit0 (B2 j) (by norm_num : (31 : Nat) < 2 ^ 6)⟩
        · rw [setSq_ne _ hki]
          exact hrest
    · by_cases hki : k = i
      · subst hki
        rw [setSq_same, setSq_same]
        exact ⟨or32_bit7 _ (hB2 j), or32_bit6 _ (hB2 j)⟩
      · rw [setSq_ne _ hki, setSq_ne _ hki]
        exact hrest
    · by_cases hki : k = i
      · subst hki
        rw [setSq_same]
        exact ⟨and_shr0 (B2 j) (by norm_num : (31 : Nat) < 2 ^ 7),
          and_shr_bit0 (B2 j) (by norm_num : (31 : Nat) < 2 ^ 6)⟩
      · rw [setSq_ne _ hki]
        exact hrest
    · by_cases hki : k = i
      · subst hki
        rw [setSq_same]
        exact ⟨and_shr0 _ (by norm_num : (15 : Nat) < 2 ^ 7),
          and_shr_bit0 _ (by norm_num : (15 : Nat) < 2 ^ 6)⟩
      · rw [setSq_ne _ hki]
        by_cases hkc : k = i &&& 248
        · subst hkc
          rw [setSq_same]
          exact ⟨by decide, by decide⟩
        · rw [setSq_ne _ hkc]
          by_cases hkr : k = i + 1
          · subst hkr
            rw [setSq_same]
            exact ⟨and_shr0 _ (by norm_num : (15 : Nat) < 2 ^ 7),
              and_shr_bit0 _ (by norm_num : (15 : Nat) < 2 ^ 6)⟩
          · rw [setSq_ne _ hkr]
            exact hrest
    · by_cases hki : k = i
      · subst hki
        rw [setSq_same]
        exact ⟨and_shr0 _ (by norm_num : (15 : Nat) < 2 ^ 7),
          and_shr_bit0 _ (by norm_num : (15 : Nat) < 2 ^ 6)⟩
      · rw [setSq_ne _ hki]
        by_cases hkc : k = (i &&& 248) + 7
        · subst hkc
          rw [setSq_same]
          exact ⟨by decide, by decide⟩
        · rw [setSq_ne _ hkc]
          by_cases hkr : k = j + 1
          · subst hkr
            rw [setSq_same]
            exact ⟨and_shr0 _ (by norm_num : (15 : Nat) < 2 ^ 7),
              and_shr_bit0 _ (by norm_num : (15 : Nat) < 2 ^ 6)⟩
          · rw [setSq_ne _ hkr]
            exact hrest
    · by_cases hki : k = i
      · subst hki
        rw [setSq_same]
        exact ⟨and_shr0 _ (by norm_num : (15 : Nat) < 2 ^ 7),
          and_shr_bit0 _ (by norm_num : (15 : Nat) < 2 ^ 6)⟩
      · rw [setSq_ne _ hki]
        exact hrest
    · by_cases hki : k = i
      · subst hki
        rw [setSq_same]
        exact ⟨and_shr0 _ (by norm_num : (15 : Nat) < 2 ^ 7),
          and_shr_bit0 _ (by norm_num : (15 : Nat) < 2 ^ 6)⟩
      · rw [setSq_ne _ hki]
        exact hrest
    · by_cases hki : k = i
      · subst hki
        rw [setSq_same]
        exact ⟨and_shr0 _ (by norm_num : (63 : Nat) < 2 ^ 7),
          and_shr_bit0 _ (by norm_num : (63 : Nat) < 2 ^ 6)⟩
      · rw [setSq_ne _ hki]
        exact hrest

/-- C6: when movePiece moves a King two files (destination i, origin j),
    the home-corner rook on the side the king moved toward is relocated to
    the square adjacent to the king's destination on the side the king came
    from, the rook's corner becomes empty, the king lands on i, the origin
    empties, and both relocated pieces have their unmoved flag cleared. -/
theorem c6_castling_execution (b : Board) (i j : Nat) (hb : isByte b) (hi : i < 64)
    (hsel : findSel b = some j) (hk : b j &&& 7 = KING) :
    (j = i + 2 ∧ 1 ≤ i &&& 7 ∧ i &&& 7 ≤ 5 →
      movePiece b i (i + 1) = b (i &&& 248) &&& 15 ∧
      movePiece b i (i &&& 248) = NONE ∧
      movePiece b i i = b j &&& 15 ∧
      movePiece b i j = NONE ∧
      (movePiece b i (i + 1) >>> 4) &&& 1 = 0 ∧
      (movePiece b i i >>> 4) &&& 1 = 0) ∧
    (i = j + 2 ∧ j &&& 7 ≤ 4 →
      movePiece b i (j + 1) = b ((i &&& 248) + 7) &&& 15 ∧
      movePiece b i ((i &&& 248) + 7) = NONE ∧
      movePiece b i i = b j &&& 15 ∧
      movePiece b i j = NONE ∧
      (movePiece b i (j + 1) >>> 4) &&& 1 = 0 ∧
      (movePiece b i i >>> 4) &&& 1 = 0) := by
  obtain ⟨hj64, -⟩ := findSel_lt hsel
  have hpieceK : removeDots (epClearAll b) j &&& 7 = KING := by
    rw [maskDS_apply j hj64, ds_and7 _ (hb j), hk]
  have hnotP : ¬removeDots (epClearAll b) j &&& 7 = PAWN := by
    rw [hpieceK]
    decide
  rw [movePiece_some hb hsel i]
  simp only [movePieceFrom]
  rw [if_neg hnotP, if_pos hpieceK]
  constructor
  · rintro ⟨rfl, hf1, hf5⟩
    have hi8 : i &&& 7 = i % 8 := and7_mod8 i (by omega)
    have h248 : i &&& 248 = i - i % 8 := and248_eq i (by omega)
    rw [hi8] at hf1 hf5
    have hc64 : i &&& 248 < 64 := by omega
    rw [if_pos (by omega : i + 2 - i = 2)]
    have e1 : i + 1 ≠ i + 2 := by omega
    have e2 : i + 1 ≠ i := by omega
    have e3 : i + 1 ≠ i &&& 248 := by rw [h248]; omega
    have e4 : i &&& 248 ≠ i + 2 := by rw [h248]; omega
    have e5 : i &&& 248 ≠ i := by rw [h248]; omega
    have e6 : i ≠ i + 2 := by omega
    have e7 : i + 2 ≠ i &&& 248 := by rw [h248]; omega
    have e8 : i + 2 ≠ i + 1 := by omega
    refine ⟨?_, ?_, ?_, ?_, ?_, ?_⟩
    · rw [setSq_ne _ e1, setSq_ne _ e2, setSq_ne _ e3, setSq_same,
        maskDS_apply _ hc64, ds_and15 _ (hb _)]
    · rw [setSq_ne _ e4, setSq_ne _ e5, setSq_same]
    · rw [setSq_ne _ e6, setSq_same, setSq_ne _ e7, setSq_ne _ e8,
        maskDS_apply _ hj64, ds_and15 _ (hb _)]
    · rw [setSq_same]
    · rw [setSq_ne _ e1, setSq_ne _ e2, setSq_ne _ e3, setSq_same]
      exact and_shr_bit0 _ (by norm_num : (15 : Nat) < 2 ^ 4)
    · rw [setSq_ne _ e6, setSq_same]
      exact and_shr_bit0 _ (by norm_num : (15 : Nat) < 2 ^ 4)
  · rintro ⟨rfl, hf4⟩
    have hj8 : j &&& 7 = j % 8 := and7_mod8 j (by omega)
    have h248 : (j + 2) &&& 248 = (j + 2) - (j + 2) % 8 := and248_eq (j + 2) (by omega)
    rw [hj8] at hf4
    have hc64 : ((j + 2) &&& 248) + 7 < 64 := by omega
    rw [if_neg (by omega : ¬j - (j + 2) = 2), if_pos (by omega : j + 2 - j = 2)]
    have e1 : j + 1 ≠ j := by omega
    have e2 : j + 1 ≠ j + 2 := by omega
    have e3 : j + 1 ≠ ((j + 2) &&& 248) + 7 := by rw [h248]; omega
    have e4 : ((j + 2) &&& 248) + 7 ≠ j := by rw [h248]; omega
    have e5 : ((j + 2) &&& 248) + 7 ≠ j + 2 := by rw [h248]; omega
    have e6 : j + 2 ≠ j := by omega
    have e7 : j ≠ ((j + 2) &&& 248) + 7 := by rw [h248]; omega
    have e8 : j ≠ j + 1 := by omega
    refine ⟨?_, ?_, ?_, ?_, ?_, ?_⟩
    · rw [setSq_ne _ e1, setSq_ne _ e2, setSq_ne _ e3, setSq_same,
        maskDS_apply _ hc64, ds_and15 _ (hb _)]
    · rw [setSq_ne _ e4, setSq_ne _ e5, setSq_same]
    · rw [setSq_ne _ e6, setSq_same, setSq_ne _ e7, setSq_ne _ e8,
        maskDS_apply _ hj64, ds_and15 _ (hb _)]
    · rw [setSq_same]
    · rw [setSq_ne _ e1, setSq_ne _ e2, setSq_ne _ e3, setSq_same]
      exact and_shr_bit0 _ (by norm_num : (15 : Nat) < 2 ^ 4)
    · rw [setSq_ne _ e6, setSq_same]
      exact and_shr_bit0 _ (by norm_num : (15 : Nat) < 2 ^ 4)

/-! ### The king move generator and the castling characterization (C3) -/

theorem dotIf_pos {c : Prop} [Decidable c] (h : c) (b : Board) (pos n : Nat) :
    dotIf c b pos n = (dotSquare b pos n).1 := by
  unfold dotIf
  rw [if_pos h]

theorem dotIf_neg {c : Prop} [Decidable c] (h : ¬c) (b : Board) (pos n : Nat) :
    dotIf c b pos n = b := by
  unfold dotIf
  rw [if_neg h]

theorem dotSquare_empty_apply {b : Board} {n : Nat} (h : b n &&& 7 = NONE) (pos : Nat) :
    (dotSquare b pos n).1 n = b n ||| 64 := by
  unfold dotSquare
  rw [if_pos h]
  exact setSq_same b n _

theorem dotIf_step {a c : Board} (pos n : Nat) (p : Prop) [Decidable p]
    (h : sameCore a c ∧ isByte c) :
    sameCore a (dotIf p c pos n) ∧ isByte (dotIf p c pos n) :=
  ⟨sameCore_trans h.1 (sameCore_dotIf p h.2 pos n), isByte_dotIf p h.2 pos n⟩

theorem kingAdj_core {b : Board} (hb : isByte b) (i : Nat) :
    sameCore b (kingAdj b i) ∧ isByte (kingAdj b i) := by
  simp only [kingAdj]
  exact dotIf_step _ _ _ (dotIf_step _ _ _ (dotIf_step _ _ _ (dotIf_step _ _ _
    (dotIf_step _ _ _ (dotIf_step _ _ _ (dotIf_step _ _ _ (dotIf_step _ _ _
      ⟨sameCore_refl b, hb⟩)))))))

theorem kingAdj_ne {b : Board} (i : Nat) {k : Nat}
    (h1 : k ≠ i - 8) (h2 : k ≠ i - 1) (h3 : k ≠ i + 1) (h4 : k ≠ i + 8)
    (h5 : k ≠ i - 9) (h6 : k ≠ i - 7) (h7 : k ≠ i + 7) (h8 : k ≠ i + 9) :
    kingAdj b i k = b k := by
  simp only [kingAdj]
  rw [dotIf_ne _ _ h8, dotIf_ne _ _ h7, dotIf_ne _ _ h6, dotIf_ne _ _ h5,
    dotIf_ne _ _ h4, dotIf_ne _ _ h3, dotIf_ne _ _ h2, dotIf_ne _ _ h1]

theorem calculateMoves_king {b : Board} {i : Nat} (h : b i &&& 7 = KING) :
    calculateMoves b i = kingMoves b i := by
  unfold calculateMoves
  rw [h]
  simp [PAWN, KNIGHT, BISHOP, QUEEN, ROOK, KING]

/-- C3 (amended): for a King with the unmoved flag on one of its home files
    (file 3 or 4), calculateMoves marks the square two files toward a side's
    corner (beyond any dot already present) exactly when that corner holds a
    Rook with its unmoved flag set — of either color, the source never
    compares the rook's color — and every square strictly between king and
    rook is empty. -/
theorem c3_castling_candidates (b : Board) (i : Nat) (hb : isByte b) (hi : i < 64)
    (hking : b i &&& 7 = KING) (hun : (b i >>> 4) &&& 1 = 1) :
    (i &&& 7 = 3 →
      ((calculateMoves b i (i - 2) >>> 6) &&& 1 = 1 ↔
        (b (i - 2) >>> 6) &&& 1 = 1 ∨
          (b (i - 3) &&& 7 = ROOK ∧ (b (i - 3) >>> 4) &&& 1 = 1 ∧
            b (i - 2) &&& 7 = NONE ∧ b (i - 1) &&& 7 = NONE)) ∧
      ((calculateMoves b i (i + 2) >>> 6) &&& 1 = 1 ↔
        (b (i + 2) >>> 6) &&& 1 = 1 ∨
          (b (i + 4) &&& 7 = ROOK ∧ (b (i + 4) >>> 4) &&& 1 = 1 ∧
            b (i + 1) &&& 7 = NONE ∧ b (i + 2) &&& 7 = NONE ∧ b (i + 3) &&& 7 = NONE))) ∧
    (i &&& 7 = 4 →
      ((calculateMoves b i (i + 2) >>> 6) &&& 1 = 1 ↔
        (b (i + 2) >>> 6) &&& 1 = 1 ∨
          (b (i + 3) &&& 7 = ROOK ∧ (b (i + 3) >>> 4) &&& 1 = 1 ∧
            b (i + 2) &&& 7 = NONE ∧ b (i + 1) &&& 7 = NONE)) ∧
      ((calculateMoves b i (i - 2) >>> 6) &&& 1 = 1 ↔
        (b (i - 2) >>> 6) &&& 1 = 1 ∨
          (b (i - 4) &&& 7 = ROOK ∧ (b (i - 4) >>> 4) &&& 1 = 1 ∧
            b (i - 1) &&& 7 = NONE ∧ b (i - 2) &&& 7 = NONE ∧ b (i - 3) &&& 7 = NONE))) := by
  rw [calculateMoves_king hking]
  unfold kingMoves
  obtain ⟨hcore, hAbyte⟩ := kingAdj_core hb i
  have hi8 : i &&& 7 = i % 8 := and7_mod8 i (by omega)
  have hbit4 : (kingAdj b i i >>> 4) &&& 1 = 1 := by
    rw [(hcore i).2.2.1]
    exact hun
  simp only [kingCastle]
  rw [if_pos hbit4]
  constructor
  · intro hf3
    rw [hi8] at hf3
    have hAm2 : kingAdj b i (i - 2) = b (i - 2) :=
      kingAdj_ne i (by omega) (by omega) (by omega) (by omega) (by omega) (by omega)
        (by omega) (by omega)
    have hAp2 : kingAdj b i (i + 2) = b (i + 2) :=
      kingAdj_ne i (by omega) (by omega) (by omega) (by omega) (by omega) (by omega)
        (by omega) (by omega)
    rw [if_pos (by rw [hi8]; exact hf3)]
    set A := kingAdj b i with hA
    by_cases hq : b (i - 3) &&& 7 = ROOK ∧ (b (i - 3) >>> 4) &&& 1 = 1 ∧
        b (i - 2) &&& 7 = NONE ∧ b (i - 1) &&& 7 = NONE
    · have hqA : A (i - 3) &&& 7 = ROOK ∧ (A (i - 3) >>> 4) &&& 1 = 1 ∧
          A (i - 2) &&& 7 = NONE ∧ A (i - 1) &&& 7 = NONE :=
        ⟨by rw [(hcore (i - 3)).1]; exact hq.1, by rw [(hcore (i - 3)).2.2.1]; exact hq.2.1,
          by rw [(hcore (i - 2)).1]; exact hq.2.2.1, by rw [(hcore (i - 1)).1]; exact hq.2.2.2⟩
      rw [dotIf_pos hqA]
      set M := (dotSquare A i (i - 2)).1 with hM
      have hMcore : sameCore b M :=
        sameCore_trans hcore (sameCore_dotSquare hAbyte i (i - 2))
      have hMm2 : M (i - 2) = b (i - 2) ||| 64 := by
        rw [hM, dotSquare_empty_apply (by rw [hAm2]; exact hq.2.2.1) i, hAm2]
      have hMp2 : M (i + 2) = b (i + 2) := by
        rw [hM, dotSquare_fst_ne i (by omega : i + 2 ≠ i - 2), hAp2]
      constructor
      · have hne : i - 2 ≠ i + 2 := by omega
        rw [dotIf_ne _ _ hne, hMm2, or64_bit6 _ (hb (i - 2))]
        exact iff_of_true rfl (Or.inr hq)
      · by_cases hk : b (i + 4) &&& 7 = ROOK ∧ (b (i + 4) >>> 4) &&& 1 = 1 ∧
            b (i + 1) &&& 7 = NONE ∧ b (i + 2) &&& 7 = NONE ∧ b (i + 3) &&& 7 = NONE
        · have hkM : M (i + 4) &&& 7 = ROOK ∧ (M (i + 4) >>> 4) &&& 1 = 1 ∧
              M (i + 1) &&& 7 = NONE ∧ M (i + 2) &&& 7 = NONE ∧ M (i + 3) &&& 7 = NONE :=
            ⟨by rw [(hMcore (i + 4)).1]; exact hk.1,
              by rw [(hMcore (i + 4)).2.2.1]; exact hk.2.1,
              by rw [(hMcore (i + 1)).1]; exact hk.2.2.1,
              by rw [(hMcore (i + 2)).1]; exact hk.2.2.2.1,
              by rw [(hMcore (i + 3)).1]; exact hk.2.2.2.2⟩
          rw [dotIf_pos hkM,
            dotSquare_empty_apply (by rw [(hMcore (i + 2)).1]; exact hk.2.2.2.1) i, hMp2,
            or64_bit6 _ (hb (i + 2))]
          exact iff_of_true rfl (Or.inr hk)
        · have hkM : ¬(M (i + 4) &&& 7 = ROOK ∧ (M (i + 4) >>> 4) &&& 1 = 1 ∧
              M (i + 1) &&& 7 = NONE ∧ M (i + 2) &&& 7 = NONE ∧ M (i + 3) &&& 7 = NONE) := by
            intro hc
            exact hk ⟨by rw [← (hMcore (i + 4)).1]; exact hc.1,
              by rw [← (hMcore (i + 4)).2.2.1]; exact hc.2.1,
              by rw [← (hMcore (i + 1)).1]; exact hc.2.2.1,
              by rw [← (hMcore (i + 2)).1]; exact hc.2.2.2.1,
              by rw [← (hMcore (i + 3)).1]; exact hc.2.2.2.2⟩
          rw [dotIf_neg hkM, hMp2]
          exact ⟨Or.inl, fun h => h.elim id fun hc => absurd hc hk⟩
    · have hqA : ¬(A (i - 3) &&& 7 = ROOK ∧ (A (i - 3) >>> 4) &&& 1 = 1 ∧
          A (i - 2) &&& 7 = NONE ∧ A (i - 1) &&& 7 = NONE) := by
        intro hc
        exact hq ⟨by rw [← (hcore (i - 3)).1]; exact hc.1,
          by rw [← (hcore (i - 3)).2.2.1]; exact hc.2.1,
          by rw [← (hcore (i - 2)).1]; exact hc.2.2.1,
          by rw [← (hcore (i - 1)).1]; exact hc.2.2.2⟩
      rw [dotIf_neg hqA]
      constructor
      · have hne : i - 2 ≠ i + 2 := by omega
        rw [dotIf_ne _ _ hne, hAm2]
        exact ⟨Or.inl, fun h => h.elim id fun hc => absurd hc hq⟩
      · by_cases hk : b (i + 4) &&& 7 = ROOK ∧ (b (i + 4) >>> 4) &&& 1 = 1 ∧
            b (i + 1) &&& 7 = NONE ∧ b (i + 2) &&& 7 = NONE ∧ b (i + 3) &&& 7 = NONE
        · have hkA : A (i + 4) &&& 7 = ROOK ∧ (A (i + 4) >>> 4) &&& 1 = 1 ∧
              A (i + 1) &&& 7 = NONE ∧ A (i + 2) &&& 7 = NONE ∧ A (i + 3) &&& 7 = NONE :=
            ⟨by rw [(hcore (i + 4)).1]; exact hk.1, by rw [(hcore (i + 4)).2.2.1]; exact hk.2.1,
              by rw [(hcore (i + 1)).1]; exact hk.2.2.1,
              by rw [(hcore (i + 2)).1]; exact hk.2.2.2.1,
              by rw [(hcore (i + 3)).1]; exact hk.2.2.2.2⟩
          rw [dotIf_pos hkA, dotSquare_empty_apply (by rw [hAp2]; exact hk.2.2.2.1) i, hAp2,
            or64_bit6 _ (hb (i + 2))]
          exact iff_of_true rfl (Or.inr hk)
        · have hkA : ¬(A (i + 4) &&& 7 = ROOK ∧ (A (i + 4) >>> 4) &&& 1 = 1 ∧
              A (i + 1) &&& 7 = NONE ∧ A (i + 2) &&& 7 = NONE ∧ A (i + 3) &&& 7 = NONE) := by
            intro hc
            exact hk ⟨by rw [← (hcore (i + 4)).1]; exact hc.1,
              by rw [← (hcore (i + 4)).2.2.1]; exact hc.2.1,
              by rw [← (hcore (i + 1)).1]; exact hc.2.2.1,
              by rw [← (hcore (i + 2)).1]; exact hc.2.2.2.1,
              by rw [← (hcore (i + 3)).1]; exact hc.2.2.2.2⟩
          rw [dotIf_neg hkA, hAp2]
          exact ⟨Or.inl, fun h => h.elim id fun hc => absurd hc hk⟩
  · intro hf4
    rw [hi8] at hf4
    have hAm2 : kingAdj b i (i - 2) = b (i - 2) :=
      kingAdj_ne i (by omega) (by omega) (by omega) (by omega) (by omega) (by omega)
        (by omega) (by omega)
    have hAp2 : kingAdj b i (i + 2) = b (i + 2) :=
      kingAdj_ne i (by omega) (by omega) (by omega) (by omega) (by omega) (by omega)
        (by omega) (by omega)
    rw [if_neg (by rw [hi8]; omega : ¬i &&& 7 = 3)]
    set A := kingAdj b i with hA
    by_cases hk : b (i + 3) &&& 7 = ROOK ∧ (b (i + 3) >>> 4) &&& 1 = 1 ∧
        b (i + 2) &&& 7 = NONE ∧ b (i + 1) &&& 7 = NONE
    · have hkA : A (i + 3) &&& 7 = ROOK ∧ (A (i + 3) >>> 4) &&& 1 = 1 ∧
          A (i + 2) &&& 7 = NONE ∧ A (i + 1) &&& 7 = NONE :=
        ⟨by rw [(hcore (i + 3)).1]; exact hk.1, by rw [(hcore (i + 3)).2.2.1]; exact hk.2.1,
          by rw [(hcore (i + 2)).1]; exact hk.2.2.1, by rw [(hcore (i + 1)).1]; exact hk.2.2.2⟩
      rw [dotIf_pos hkA]
      set M := (dotSquare A i (i + 2)).1 with hM
      have hMcore : sameCore b M :=
        sameCore_trans hcore (sameCore_dotSquare hAbyte i (i + 2))
      have hMp2 : M (i + 2) = b (i + 2) ||| 64 := by
        rw [hM, dotSquare_empty_apply (by rw [hAp2]; exact hk.2.2.1) i, hAp2]
      have hMm2 : M (i - 2) = b (i - 2) := by
        rw [hM, dotSquare_fst_ne i (by omega : i - 2 ≠ i + 2), hAm2]
      constructor
      · have hne : i + 2 ≠ i - 2 := by omega
        rw [dotIf_ne _ _ hne, hMp2, or64_bit6 _ (hb (i + 2))]
        exact iff_of_true rfl (Or.inr hk)
      · by_cases hq : b (i - 4) &&& 7 = ROOK ∧ (b (i - 4) >>> 4) &&& 1 = 1 ∧
            b (i - 1) &&& 7 = NONE ∧ b (i - 2) &&& 7 = NONE ∧ b (i - 3) &&& 7 = NONE
        · have hqM : M (i - 4) &&& 7 = ROOK ∧ (M (i - 4) >>> 4) &&& 1 = 1 ∧
              M (i - 1) &&& 7 = NONE ∧ M (i - 2) &&& 7 = NONE ∧ M (i - 3) &&& 7 = NONE :=
            ⟨by rw [(hMcore (i - 4)).1]; exact hq.1,
              by rw [(hMcore (i - 4)).2.2.1]; exact hq.2.1,
              by rw [(hMcore (i - 1)).1]; exact hq.2.2.1,
              by rw [(hMcore (i - 2)).1]; exact hq.2.2.2.1,
              by rw [(hMcore (i - 3)).1]; exact hq.2.2.2.2⟩
          rw [dotIf_pos hqM,
            dotSquare_empty_apply (by rw [(hMcore (i - 2)).1]; exact hq.2.2.2.1) i, hMm2,
            or64_bit6 _ (hb (i - 2))]
          exact iff_of_true rfl (Or.inr hq)
        · have hqM : ¬(M (i - 4) &&& 7 = ROOK ∧ (M (i - 4) >>> 4) &&& 1 = 1 ∧
              M (i - 1) &&& 7 = NONE ∧ M (i - 2) &&& 7 = NONE ∧ M (i - 3) &&& 7 = NONE) := by
            intro hc
            exact hq ⟨by rw [← (hMcore (i - 4)).1]; exact hc.1,
              by rw [← (hMcore (i - 4)).2.2.1]; exact hc.2.1,
              by rw [← (hMcore (i - 1)).1]; exact hc.2.2.1,
              by rw [← (hMcore (i - 2)).1]; exact hc.2.2.2.1,
              by rw [← (hMcore (i - 3)).1]; exact hc.2.2.2.2⟩
          rw [dotIf_neg hqM, hMm2]
          exact ⟨Or.inl, fun h => h.elim id fun hc => absurd hc hq⟩
    · have hkA : ¬(A (i + 3) &&& 7 = ROOK ∧ (A (i + 3) >>> 4) &&& 1 = 1 ∧
          A (i + 2) &&& 7 = NONE ∧ A (i + 1) &&& 7 = NONE) := by
        intro hc
        exact hk ⟨by rw [← (hcore (i + 3)).1]; exact hc.1,
          by rw [← (hcore (i + 3)).2.2.1]; exact hc.2.1,
          by rw [← (hcore (i + 2)).1]; exact hc.2.2.1,
          by rw [← (hcore (i + 1)).1]; exact hc.2.2.2⟩
      rw [dotIf_neg hkA]
      constructor
      · have hne : i + 2 ≠ i - 2 := by omega
        rw [dotIf_ne _ _ hne, hAp2]
        exact ⟨Or.inl, fun h => h.elim id fun hc => absurd hc hk⟩
      · by_cases hq : b (i - 4) &&& 7 = ROOK ∧ (b (i - 4) >>> 4) &&& 1 = 1 ∧
            b (i - 1) &&& 7 = NONE ∧ b (i - 2) &&& 7 = NONE ∧ b (i - 3) &&& 7 = NONE
        · have hqA : A (i - 4) &&& 7 = ROOK ∧ (A (i - 4) >>> 4) &&& 1 = 1 ∧
              A (i - 1) &&& 7 = NONE ∧ A (i - 2) &&& 7 = NONE ∧ A (i - 3) &&& 7 = NONE :=
            ⟨by rw [(hcore (i - 4)).1]; exact hq.1, by rw [(hcore (i - 4)).2.2.1]; exact hq.2.1,
              by rw [(hcore (i - 1)).1]; exact hq.2.2.1,
              by rw [(hcore (i - 2)).1]; exact hq.2.2.2.1,
              by rw [(hcore (i - 3)).1]; exact hq.2.2.2.2⟩
          rw [dotIf_pos hqA, dotSquare_empty_apply (by rw [hAm2]; exact hq.2.2.2.1) i, hAm2,
            or64_bit6 _ (hb (i - 2))]
          exact iff_of_true rfl (Or.inr hq)
        · have hqA : ¬(A (i - 4) &&& 7 = ROOK ∧ (A (i - 4) >>> 4) &&& 1 = 1 ∧
              A (i - 1) &&& 7 = NONE ∧ A (i - 2) &&& 7 = NONE ∧ A (i - 3) &&& 7 = NONE) := by
            intro hc
            exact hq ⟨by rw [← (hcore (i - 4)).1]; exact hc.1,
              by rw [← (hcore (i - 4)).2.2.1]; exact hc.2.1,
              by rw [← (hcore (i - 1)).1]; exact hc.2.2.1,
              by rw [← (hcore (i - 2)).1]; exact hc.2.2.2.1,
              by rw [← (hcore (i - 3)).1]; exact hc.2.2.2.2⟩
          rw [dotIf_neg hqA, hAm2]
          exact ⟨Or.inl, fun h => h.elim id fun hc => absurd hc hq⟩

/-- Witness for C7: the pawn moved to 56 becomes a white queen, 48 empties. -/
theorem c7_promotion_w :
    movePiece c7Board 56 56 = (c7Board 48 &&& 8) ||| QUEEN ∧
    movePiece c7Board 56 56 &&& 7 = QUEEN ∧
    (movePiece c7Board 56 56 >>> 3) &&& 1 = (c7Board 48 >>> 3) &&& 1 ∧
    movePiece c7Board 56 48 = NONE :=
  c7_promotion c7Board 56 48 (by unfold c7Board; exact isByte_ofList _ (by decide))
    (by decide) (by decide) (by decide) (Or.inr (by decide))

/-- Witness for C9 at the knight board with destination 18. -/
theorem c9_scan_in_bounds_w :
    findSel c9Board = some 0 ∧ 0 < 64 ∧
      movePiece c9Board 18 = movePieceFrom (removeDots (epClearAll c9Board)) 18 0 :=
  c9_scan_in_bounds c9Board 18 0 (by unfold c9Board; exact isByte_ofList _ (by decide))
    (by decide) (by decide) (by decide)

/-- Witness for C4: the double-stepped pawn's destination carries the
    en-passant flag. -/
theorem c4_en_passant_lifecycle_w : (movePiece c4Board 24 24 >>> 5) &&& 1 = 1 :=
  (c4_en_passant_lifecycle c4Board 24 8
    (by unfold c4Board; exact isByte_ofList _ (by decide)) (by decide)
    (by decide)).2.1.mpr ⟨by decide, by decide, by decide⟩

/-- Witness for C10 at the destination square 13 after the rook move. -/
theorem c10_deselect_and_clear_w :
    movePiece c10Board 13 13 >>> 7 = 0 ∧ (movePiece c10Board 13 13 >>> 6) &&& 1 = 0 :=
  c10_deselect_and_clear c10Board 13 5
    (by unfold c10Board; exact isByte_ofList _ (by decide)) (by decide) (by decide)
    (by decide) (by decide) 13 (by decide)

/-- Witness for C6: executing the two-file king move relocates the corner
    rook next to the king and clears both unmoved flags. -/
theorem c6_castling_execution_w :
    movePiece c6Board 1 (1 + 1) = c6Board (1 &&& 248) &&& 15 ∧
    movePiece c6Board 1 (1 &&& 248) = NONE ∧
    movePiece c6Board 1 1 = c6Board 3 &&& 15 ∧
    movePiece c6Board 1 3 = NONE ∧
    (movePiece c6Board 1 (1 + 1) >>> 4) &&& 1 = 0 ∧
    (movePiece c6Board 1 1 >>> 4) &&& 1 = 0 :=
  (c6_castling_execution c6Board 1 3 (by unfold c6Board; exact isByte_ofList _ (by decide))
    (by decide) (by decide) (by decide)).1 ⟨rfl, by decide, by decide⟩

/-- Witness for the amended C3: the queenside castling destination 57 gets
    the candidate mark. -/
theorem c3_castling_candidates_w :
    (calculateMoves c3wBoard 59 (59 - 2) >>> 6) &&& 1 = 1 :=
  ((c3_castling_candidates c3wBoard 59
    (by unfold c3wBoard; exact isByte_ofList _ (by decide)) (by decide) (by decide)
    (by decide)).1 (by decide)).1.mpr
    (Or.inr ⟨by decide, by decide, by decide, by decide⟩)
